import Mathlib

/-!
# PID controller and odometry loop of the VEX library

A shallow embedding of `src/PIDs/PID.{h,cpp}` and `src/Odometry/odom.{h,cpp}`.

Conventions of the embedding

* `float` values of the PID controller are exact rationals (`ℚ`), so every
  definition of the controller is executable; `fabs` is `|·|`.
* `float` values of the odometry loop are real numbers (`ℝ`), because the loop
  calls `sinf`, `cosf`, `atan2f` and `sqrtf`.
* `int` fields are integers (`ℤ`); `int → float` is the cast.  The conversion
  `float → int` truncates toward zero and is defined only when the result
  fits a 32-bit `int`; outside that range the member is left with an
  indeterminate value.  Signed overflow of the counters is undefined in C++,
  so the counters carry no bound: the model describes the runs in which they
  stay in range.
* The rational model has no NaN and no infinity.  The controller is therefore
  embedded a second time over `XFloat` (a rational, `+∞`, `-∞` or NaN, with the
  arithmetic and the comparisons of IEEE 754, without rounding): `XPID`.  On
  finite values the two embeddings agree (`XPID.update_ofPID`).
* `M_PI` is the decimal literal of `<math.h>`, a rational number close to `π`:
  headings computed from rational readings are rational, like the `float`
  values of the program.
* A C++ constructor assigns to the members of an object whose storage holds
  indeterminate values; the embedding passes that storage explicitly
  (`mem`), and members the constructor does not assign keep what `mem` held.
* A member function that mutates the object returns the new object; when it
  also returns a value the result is a pair.
-/

/-! ## `PID.h`: the data of a controller -/

/-- The struct `PID::PID_data`: ten `float` members and three `int` members. -/
structure PID_data where
  Kp : ℚ
  Ki : ℚ
  Kd : ℚ
  error : ℚ
  integral : ℚ
  previous_error : ℚ
  integral_tolerance : ℚ
  tolerance : ℚ
  max : ℚ
  min : ℚ
  time_settled : ℤ
  settle_time : ℤ
  time : ℤ
  deriving DecidableEq, Repr

/-- The struct `PID::tuning_data`. -/
structure tuning_data where
  overshoot : ℚ
  time : ℚ
  deriving DecidableEq, Repr

/-- The class `PID`: members `pid`, `sgn_save` and `data`. -/
structure PID where
  pid : PID_data
  sgn_save : ℤ
  data : tuning_data
  deriving DecidableEq, Repr

/-! ## `PID.cpp` -/

/-- The helper `int sgn(float input)`: `-1` below zero, `1` otherwise. -/
def sgn (input : ℚ) : ℤ :=
  if input < 0 then -1 else 1

/-- The least value of a 32-bit `int`. -/
def INT_MIN : ℤ := -2147483648

/-- The greatest value of a 32-bit `int`. -/
def INT_MAX : ℤ := 2147483647

/-- Rounding toward zero: the fractional part is discarded. -/
def truncate (x : ℚ) : ℤ :=
  if 0 ≤ x then ⌊x⌋ else ⌈x⌉

/-- The implicit conversion `float → int` of C++: the value truncated toward
zero when that fits a 32-bit `int`; the conversion is undefined otherwise
(`none`). -/
def floatToInt (x : ℚ) : Option ℤ :=
  if INT_MIN ≤ truncate x ∧ truncate x ≤ INT_MAX then some (truncate x) else none

/-- The constructor `PID::PID` (named `ctor`: a definition `PID.PID` would shadow
the type inside its own namespace).  `mem` is the storage the object is built
in; the members `pid.integral`, `pid.previous_error` and `pid.time` are not
assigned by the constructor and keep the contents of `mem`.  When the
conversion of `settle_time` to `int` is undefined, `pid.settle_time` is
indeterminate: it is what `mem` held. -/
def PID.ctor (mem : PID) (Kp Ki Kd error integral_tolerance tolerance settle_time max min : ℚ) :
    PID :=
  { pid :=
      { Kp := Kp
        Ki := Ki
        Kd := Kd
        error := error
        integral := mem.pid.integral
        previous_error := mem.pid.previous_error
        integral_tolerance := integral_tolerance
        tolerance := tolerance
        settle_time := (floatToInt settle_time).getD mem.pid.settle_time
        time_settled := 0
        max := max
        min := min
        time := mem.pid.time }
    sgn_save := sgn error
    data :=
      { overshoot := |error|
        time := 0 } }

/-- The member function `float PID::update(float error)`: the controller after
the call and the returned output.  Each member the body assigns is a local
value here (`pid_error` for `pid.error`, and so on), in the order of the
statements of the body; the members are written back at the end. -/
def PID.update (self : PID) (error : ℚ) : PID × ℚ :=
  let pid_previous_error := self.pid.error
  let pid_error := error
  let pid_integral :=
    if |pid_error| < self.pid.integral_tolerance then self.pid.integral + pid_error
    else self.pid.integral
  let pid_integral :=
    if sgn pid_error ≠ sgn pid_previous_error ∨ pid_error = 0
        ∨ |pid_error| > self.pid.integral_tolerance then 0
    else pid_integral
  let output := self.pid.Kp * pid_error + self.pid.Ki * pid_integral
    + self.pid.Kd * (pid_error - pid_previous_error)
  let pid_time_settled :=
    if |pid_error| < self.pid.tolerance then self.pid.time_settled + 10 else 0
  let pid_time := self.pid.time + 10
  let data_overshoot :=
    if (self.sgn_save : ℚ) * pid_error < self.data.overshoot then
      -(self.sgn_save : ℚ) * pid_error
    else self.data.overshoot
  let data_time : ℚ := (pid_time : ℚ)
  let output := if output > self.pid.max then self.pid.max else output
  let output := if output < self.pid.min then self.pid.min else output
  ({ pid :=
       { Kp := self.pid.Kp
         Ki := self.pid.Ki
         Kd := self.pid.Kd
         error := pid_error
         integral := pid_integral
         previous_error := pid_previous_error
         integral_tolerance := self.pid.integral_tolerance
         tolerance := self.pid.tolerance
         max := self.pid.max
         min := self.pid.min
         time_settled := pid_time_settled
         settle_time := self.pid.settle_time
         time := pid_time }
     sgn_save := self.sgn_save
     data :=
       { overshoot := data_overshoot
         time := data_time } }, output)

/-- The member function `bool PID::settled()`. -/
def PID.settled (self : PID) : Bool :=
  if self.pid.time_settled ≥ self.pid.settle_time then true else false

/-- The member function `PID::get_data()`. -/
def PID.get_data (self : PID) : tuning_data :=
  self.data

/-! ### Running a controller over a sequence of ticks -/

/-- The controller after the calls `update(e)` for the errors `e` of `errors`,
in order. -/
def PID.run (self : PID) (errors : List ℚ) : PID :=
  errors.foldl (fun p e => (p.update e).1) self

/-- The outputs returned by the calls `update(e)` for the errors of `errors`,
in order. -/
def PID.outputs (self : PID) : List ℚ → List ℚ
  | [] => []
  | e :: es => (self.update e).2 :: PID.outputs (self.update e).1 es

/-- The value of `settled()` after each of the calls `update(e)`, in order. -/
def PID.settledAfter (self : PID) : List ℚ → List Bool
  | [] => []
  | e :: es => (self.update e).1.settled :: PID.settledAfter (self.update e).1 es

/-- Some storage contents for examples: every member zero. -/
def zeroMem : PID :=
  { pid := { Kp := 0, Ki := 0, Kd := 0, error := 0, integral := 0, previous_error := 0,
             integral_tolerance := 0, tolerance := 0, max := 0, min := 0,
             time_settled := 0, settle_time := 0, time := 0 },
    sgn_save := 0,
    data := { overshoot := 0, time := 0 } }

/-- A controller for examples: `PID(1, 0, 0, 10, 3, 1, 30, 12, -12)` built in
zeroed storage. -/
def exampleController : PID :=
  PID.ctor zeroMem 1 0 0 10 3 1 30 12 (-12)

/-- Storage for examples that is not zeroed: `pid.integral` holds `7`,
`pid.previous_error` holds `2` and `pid.time` holds `3`. -/
def dirtyMem : PID :=
  { pid := { Kp := 0, Ki := 0, Kd := 0, error := 0, integral := 7, previous_error := 2,
             integral_tolerance := 0, tolerance := 0, max := 0, min := 0,
             time_settled := 0, settle_time := 0, time := 3 },
    sgn_save := 0,
    data := { overshoot := 0, time := 0 } }

/-! ## `odom.h`: the data of the odometry object -/

/-- The data members of the class `odom`.  The sensor pointers are not data of
the model: what the sensors return when polled is a `Readings` value.
`robotPosition` is the three-element vector `(x, y, heading)`. -/
structure odom where
  verticalDistanceFromCenter : ℝ
  horizontalDistanceFromCenter : ℝ
  verticalInchesPerDegree : ℝ
  horizontalInhcesPerDegree : ℝ
  usesRotation : Bool
  isRunning : Bool
  robotPosition : ℝ × ℝ × ℝ
  updateRateMilliseconds : ℤ

/-- What the sensors return when they are polled once, all in degrees:
`position(deg)` of the two rotation sensors and of the two encoders, and
`rotation(deg)` and `heading(deg)` of the inertial sensor. -/
structure Readings where
  verticalRotation : ℝ
  horizontalRotation : ℝ
  verticalEncoder : ℝ
  horizontalEncoder : ℝ
  inertialRotation : ℝ
  inertialHeading : ℝ

/-- The locals of `odom::start` that live across iterations of its loop. -/
structure Previous where
  previousVertical : ℝ
  previousHorizontal : ℝ
  previousHeading : ℝ

/-- The locals of one iteration of the loop of `odom::start`. -/
structure CycleLocals where
  verticalPosition : ℝ
  horizontalPosition : ℝ
  heading : ℝ
  changeInVertical : ℝ
  changeInHorizontal : ℝ
  changeInHeading : ℝ
  localX : ℝ
  localY : ℝ
  localPolarAngle : ℝ
  polarRadius : ℝ
  globalPolarAngle : ℝ
  changeinX : ℝ
  changeinY : ℝ

/-! ## `odom.cpp` -/

/-- The constant `M_PI` of `<math.h>`: the decimal literal
`3.14159265358979323846`, a rational number. -/
noncomputable def M_PI : ℝ := 3.14159265358979323846

/-- The library function `sinf`. -/
noncomputable def sinf (x : ℝ) : ℝ := Real.sin x

/-- The library function `cosf`. -/
noncomputable def cosf (x : ℝ) : ℝ := Real.cos x

/-- The library function `sqrtf`. -/
noncomputable def sqrtf (x : ℝ) : ℝ := Real.sqrt x

/-- The library function `powf`. -/
noncomputable def powf (x y : ℝ) : ℝ := x ^ y

/-- The library function `atan2f`: the angle of the point `(x, y)`, in
`(-π, π]`, and `0` at the origin. -/
noncomputable def atan2f (y x : ℝ) : ℝ := Complex.arg ⟨x, y⟩

/-- The member function `odom::degToRad`. -/
noncomputable def odom.degToRad (deg : ℝ) : ℝ :=
  deg * (M_PI / 180)

/-- The statements of `odom::start` before its loop that read the sensors:
the first values of `previousVertical`, `previousHorizontal` and
`previousHeading`. -/
noncomputable def odom.startPrevious (self : odom) (r : Readings) : Previous :=
  { previousVertical :=
      if self.usesRotation then r.verticalRotation * self.verticalInchesPerDegree
      else r.verticalEncoder * self.verticalInchesPerDegree
    previousHorizontal :=
      if self.usesRotation then r.horizontalRotation * self.horizontalInhcesPerDegree
      else r.horizontalEncoder * self.horizontalInhcesPerDegree
    previousHeading := odom.degToRad r.inertialRotation }

/-- The locals computed by one iteration of the loop of `odom::start`, from
the locals kept from the iteration before and this iteration's readings. -/
noncomputable def odom.cycle (self : odom) (prev : Previous) (r : Readings) : CycleLocals :=
  let verticalPosition :=
    if self.usesRotation then r.verticalRotation * self.verticalInchesPerDegree
    else r.verticalEncoder * self.verticalInchesPerDegree
  let horizontalPosition :=
    if self.usesRotation then r.horizontalRotation * self.horizontalInhcesPerDegree
    else r.horizontalEncoder * self.horizontalInhcesPerDegree
  let heading := odom.degToRad r.inertialRotation
  let changeInVertical := verticalPosition - prev.previousVertical
  let changeInHorizontal := horizontalPosition - prev.previousHorizontal
  let changeInHeading := heading - prev.previousHeading
  let localX :=
    if changeInHeading = 0 then changeInHorizontal
    else (2 * sinf (changeInHeading / 2))
      * ((changeInHorizontal / changeInHeading) + self.horizontalDistanceFromCenter)
  let localY :=
    if changeInHeading = 0 then changeInVertical
    else (2 * sinf (changeInHeading / 2))
      * ((changeInVertical / changeInHeading) + self.verticalDistanceFromCenter)
  let localPolarAngle := if localX = 0 ∧ localY = 0 then 0 else atan2f localY localX
  let polarRadius :=
    if localX = 0 ∧ localY = 0 then 0 else sqrtf (powf localX 2 + powf localY 2)
  let globalPolarAngle := localPolarAngle - prev.previousHeading - (changeInHeading / 2)
  let changeinX := polarRadius * cosf globalPolarAngle
  let changeinY := polarRadius * sinf globalPolarAngle
  { verticalPosition := verticalPosition
    horizontalPosition := horizontalPosition
    heading := heading
    changeInVertical := changeInVertical
    changeInHorizontal := changeInHorizontal
    changeInHeading := changeInHeading
    localX := localX
    localY := localY
    localPolarAngle := localPolarAngle
    polarRadius := polarRadius
    globalPolarAngle := globalPolarAngle
    changeinX := changeinX
    changeinY := changeinY }

/-- One iteration of the loop of `odom::start` (without its pacing sleep): the
object and the kept locals after the iteration. -/
noncomputable def odom.tick (self : odom) (prev : Previous) (r : Readings) : odom × Previous :=
  let c := self.cycle prev r
  ({ self with
      robotPosition :=
        (self.robotPosition.1 + c.changeinX, self.robotPosition.2.1 + c.changeinY,
          r.inertialHeading) },
   { previousVertical := c.verticalPosition
     previousHorizontal := c.horizontalPosition
     previousHeading := c.heading })

/-- The iterations of the loop of `odom::start`, one for each element of
`rs`, in order. -/
noncomputable def odom.ticks (self : odom) (prev : Previous) : List Readings → odom × Previous
  | [] => (self, prev)
  | r :: rs => odom.ticks (self.tick prev r).1 (self.tick prev r).2 rs

/-- The member function `odom::start`, for a loop that is stopped after it has
polled the sensors `rs.length` times: `first` is what the sensors return
before the loop, `rs` what they return in each iteration. -/
noncomputable def odom.start (self : odom) (first : Readings) (rs : List Readings) : odom :=
  let self := { self with isRunning := true }
  (self.ticks (self.startPrevious first) rs).1

/-- The member function `odom::getX`. -/
def odom.getX (self : odom) : ℝ :=
  self.robotPosition.1

/-- The member function `odom::getY`. -/
def odom.getY (self : odom) : ℝ :=
  self.robotPosition.2.1

/-- The member function `odom::getHeading`. -/
def odom.getHeading (self : odom) : ℝ :=
  self.robotPosition.2.2

/-- An odometry object for examples: rotation sensors, one inch per degree on
both wheels, both tracking wheels at the tracking center (both offsets zero),
pose `(0, 0, 0)`. -/
noncomputable def centeredOdom : odom :=
  { verticalDistanceFromCenter := 0
    horizontalDistanceFromCenter := 0
    verticalInchesPerDegree := 1
    horizontalInhcesPerDegree := 1
    usesRotation := true
    isRunning := true
    robotPosition := (0, 0, 0)
    updateRateMilliseconds := 10 }

/-- An odometry object for examples: as `centeredOdom`, with the horizontal
tracking wheel one inch from the tracking center. -/
noncomputable def offsetOdom : odom :=
  { verticalDistanceFromCenter := 0
    horizontalDistanceFromCenter := 1
    verticalInchesPerDegree := 1
    horizontalInhcesPerDegree := 1
    usesRotation := true
    isRunning := true
    robotPosition := (0, 0, 0)
    updateRateMilliseconds := 10 }

/-- The kept locals for examples: both wheels at `0`, heading `0`. -/
noncomputable def zeroPrevious : Previous :=
  { previousVertical := 0
    previousHorizontal := 0
    previousHeading := 0 }

/-- Readings for examples: both wheels at `v` and `h` degrees (on the rotation
sensors and on the encoders), the inertial sensor at `rot` degrees of rotation
and of heading. -/
noncomputable def readingsAt (v h rot : ℝ) : Readings :=
  { verticalRotation := v
    horizontalRotation := h
    verticalEncoder := v
    horizontalEncoder := h
    inertialRotation := rot
    inertialHeading := rot }

/-- Readings of two iterations for examples: the heading stays at `0` while
the vertical wheel advances by `2` degrees and the horizontal wheel by `1`
degree in each iteration. -/
noncomputable def straightReadings : List Readings :=
  [readingsAt 2 1 0, readingsAt 4 2 0]

/-! ## `odom.cpp`: pacing, getters and setters -/

/-- The value the loop of `odom::start` assigns to `localX` (and, with the
vertical delta and offset, to `localY`), as a function of `changeInHeading`,
of the wheel delta `change` and of the wheel's `distanceFromCenter`: the raw
delta when `changeInHeading == 0`, the arc formula otherwise. -/
noncomputable def odom.localDisplacement (changeInHeading change distanceFromCenter : ℝ) : ℝ :=
  if changeInHeading = 0 then change
  else (2 * sinf (changeInHeading / 2)) * ((change / changeInHeading) + distanceFromCenter)

/-- The argument the loop of `odom::start` passes to
`vex::this_thread::sleep_for` at the end of an iteration:
`this->updateRateMilliseconds - timeElapsed`, where `timeElapsed` is the whole
number of milliseconds the iteration took (a `long long`). -/
def odom.sleepArgument (self : odom) (timeElapsed : ℤ) : ℤ :=
  self.updateRateMilliseconds - timeElapsed

/-- The conversion of a signed integer to an unsigned integer type of `w`
bits: the value modulo `2^w`. -/
def toUnsigned (w : ℕ) (x : ℤ) : ℤ :=
  x % 2 ^ w

/-- Modelled from the spec: the inertial sensor `vex::inertial`, whose class
is declared in the SDK header `vex.h` and is not among the sources.  The spec
gives the sensor a "current absolute heading", a "current cumulative rotation"
and a "set reference heading/rotation" mutator: the sensor holds the two
angles, in degrees. -/
structure inertial where
  heading : ℝ
  rotation : ℝ

/-- Modelled from the spec: `vex::inertial::setHeading(value, deg)`, the "set
reference heading" mutator of the sensor, absent from the sources. -/
def inertial.setHeading (self : inertial) (value : ℝ) : inertial :=
  { self with heading := value }

/-- Modelled from the spec: `vex::inertial::setRotation(value, deg)`, the "set
reference rotation" mutator of the sensor, absent from the sources. -/
def inertial.setRotation (self : inertial) (value : ℝ) : inertial :=
  { self with rotation := value }

/-- The member function `odom::getPosition`: the vector `(x, y, heading)`. -/
def odom.getPosition (self : odom) : ℝ × ℝ × ℝ :=
  self.robotPosition

/-- The member function `odom::setPosition`: the object and the inertial
sensor after the call. -/
def odom.setPosition (self : odom) (Inertial : inertial) (x y heading : ℝ) : odom × inertial :=
  let robotPosition := self.robotPosition
  let robotPosition := (x, robotPosition.2.1, robotPosition.2.2)
  let robotPosition := (robotPosition.1, y, robotPosition.2.2)
  let robotPosition := (robotPosition.1, robotPosition.2.1, heading)
  let Inertial := Inertial.setHeading heading
  let Inertial := Inertial.setRotation heading
  ({ self with robotPosition := robotPosition }, Inertial)

/-- The member function `odom::setX`. -/
def odom.setX (self : odom) (x : ℝ) : odom :=
  { self with robotPosition := (x, self.robotPosition.2.1, self.robotPosition.2.2) }

/-- The member function `odom::setY`. -/
def odom.setY (self : odom) (y : ℝ) : odom :=
  { self with robotPosition := (self.robotPosition.1, y, self.robotPosition.2.2) }

/-- The member function `odom::setHeading`: the object and the inertial
sensor after the call. -/
def odom.setHeading (self : odom) (Inertial : inertial) (heading : ℝ) : odom × inertial :=
  let robotPosition := (self.robotPosition.1, self.robotPosition.2.1, heading)
  let Inertial := Inertial.setHeading heading
  let Inertial := Inertial.setRotation heading
  ({ self with robotPosition := robotPosition }, Inertial)

/-- A controller for examples whose limits are the wrong way round:
`PID(1, 0, 0, 10, 3, 1, 30, -12, 12)`, so `max = -12` and `min = 12`. -/
def swappedController : PID :=
  PID.ctor zeroMem 1 0 0 10 3 1 30 (-12) 12

/-! ## The controller over `float` values with NaN and infinities

The second embedding of `PID.h` and `PID.cpp`.  A `float` is an `XFloat`: NaN,
`-∞`, a rational number, or `+∞`.  Arithmetic and comparisons follow IEEE 754
(every comparison with NaN is false, `∞ - ∞` and `0 * ∞` are NaN); rounding
and the sign of zero are not modelled. -/

/-- A `float` value: NaN, `-∞`, a number, or `+∞`. -/
inductive XFloat where
  | nan : XFloat
  | ninf : XFloat
  | fin (q : ℚ) : XFloat
  | pinf : XFloat
  deriving DecidableEq, Repr

/-- Unary minus on `float`. -/
def XFloat.neg : XFloat → XFloat
  | .nan => .nan
  | .ninf => .pinf
  | .fin q => .fin (-q)
  | .pinf => .ninf

/-- Addition on `float`: NaN when an operand is NaN or the operands are
infinities of opposite sign. -/
def XFloat.add : XFloat → XFloat → XFloat
  | .nan, _ => .nan
  | _, .nan => .nan
  | .pinf, .ninf => .nan
  | .ninf, .pinf => .nan
  | .pinf, _ => .pinf
  | _, .pinf => .pinf
  | .ninf, _ => .ninf
  | _, .ninf => .ninf
  | .fin a, .fin b => .fin (a + b)

/-- Subtraction on `float`. -/
def XFloat.sub (a b : XFloat) : XFloat :=
  XFloat.add a (XFloat.neg b)

/-- The product of an infinity of sign `s` (`true` for `+∞`) and the number
`a`: NaN when `a` is zero. -/
def XFloat.mulInf (s : Bool) (a : ℚ) : XFloat :=
  if a = 0 then .nan
  else if (0 < a) = s then .pinf
  else .ninf

/-- Multiplication on `float`: NaN when an operand is NaN or the operands are
zero and an infinity. -/
def XFloat.mul : XFloat → XFloat → XFloat
  | .nan, _ => .nan
  | _, .nan => .nan
  | .fin a, .fin b => .fin (a * b)
  | .fin a, .pinf => XFloat.mulInf true a
  | .fin a, .ninf => XFloat.mulInf false a
  | .pinf, .fin b => XFloat.mulInf true b
  | .ninf, .fin b => XFloat.mulInf false b
  | .pinf, .pinf => .pinf
  | .pinf, .ninf => .ninf
  | .ninf, .pinf => .ninf
  | .ninf, .ninf => .pinf

/-- The library function `fabs`. -/
def XFloat.fabs : XFloat → XFloat
  | .nan => .nan
  | .ninf => .pinf
  | .fin q => .fin |q|
  | .pinf => .pinf

/-- The comparison `a < b` on `float`: false when an operand is NaN. -/
def XFloat.lt : XFloat → XFloat → Bool
  | .nan, _ => false
  | _, .nan => false
  | .pinf, _ => false
  | _, .ninf => false
  | .ninf, _ => true
  | _, .pinf => true
  | .fin a, .fin b => decide (a < b)

/-- The comparison `a > b` on `float`. -/
def XFloat.gt (a b : XFloat) : Bool :=
  XFloat.lt b a

/-- The comparison `a == b` on `float`: false when an operand is NaN. -/
def XFloat.eq : XFloat → XFloat → Bool
  | .ninf, .ninf => true
  | .pinf, .pinf => true
  | .fin a, .fin b => decide (a = b)
  | _, _ => false

/-- The comparison `a <= b` on `float`: false when an operand is NaN. -/
def XFloat.le (a b : XFloat) : Bool :=
  XFloat.lt a b || XFloat.eq a b

/-- The conversion `int → float`. -/
def XFloat.ofInt (z : ℤ) : XFloat :=
  .fin (z : ℚ)

/-- The conversion `float → int`: defined for a number whose truncation fits
a 32-bit `int`, undefined (`none`) for every other value. -/
def XFloat.toInt : XFloat → Option ℤ
  | .fin q => floatToInt q
  | _ => none

/-- The struct `PID::PID_data` over `XFloat`. -/
structure XPID_data where
  Kp : XFloat
  Ki : XFloat
  Kd : XFloat
  error : XFloat
  integral : XFloat
  previous_error : XFloat
  integral_tolerance : XFloat
  tolerance : XFloat
  max : XFloat
  min : XFloat
  time_settled : ℤ
  settle_time : ℤ
  time : ℤ
  deriving DecidableEq, Repr

/-- The struct `PID::tuning_data` over `XFloat`. -/
structure Xtuning_data where
  overshoot : XFloat
  time : XFloat
  deriving DecidableEq, Repr

/-- The class `PID` over `XFloat`. -/
structure XPID where
  pid : XPID_data
  sgn_save : ℤ
  data : Xtuning_data
  deriving DecidableEq, Repr

/-- The helper `int sgn(float input)` over `XFloat`: `-1` below zero, `1`
otherwise, so `1` at NaN. -/
def xsgn (input : XFloat) : ℤ :=
  if XFloat.lt input (.fin 0) then -1 else 1

/-- The constructor `PID::PID` over `XFloat`; `mem` is the storage the object
is built in, as for `PID.ctor`. -/
def XPID.ctor (mem : XPID)
    (Kp Ki Kd error integral_tolerance tolerance settle_time max min : XFloat) : XPID :=
  { pid :=
      { Kp := Kp
        Ki := Ki
        Kd := Kd
        error := error
        integral := mem.pid.integral
        previous_error := mem.pid.previous_error
        integral_tolerance := integral_tolerance
        tolerance := tolerance
        settle_time := (XFloat.toInt settle_time).getD mem.pid.settle_time
        time_settled := 0
        max := max
        min := min
        time := mem.pid.time }
    sgn_save := xsgn error
    data :=
      { overshoot := XFloat.fabs error
        time := .fin 0 } }

/-- The member function `float PID::update(float error)` over `XFloat`,
statement by statement as `PID.update`. -/
def XPID.update (self : XPID) (error : XFloat) : XPID × XFloat :=
  let pid_previous_error := self.pid.error
  let pid_error := error
  let pid_integral :=
    if XFloat.lt (XFloat.fabs pid_error) self.pid.integral_tolerance then
      XFloat.add self.pid.integral pid_error
    else self.pid.integral
  let pid_integral :=
    if xsgn pid_error ≠ xsgn pid_previous_error ∨ XFloat.eq pid_error (.fin 0) = true
        ∨ XFloat.gt (XFloat.fabs pid_error) self.pid.integral_tolerance = true then .fin 0
    else pid_integral
  let output := XFloat.add
    (XFloat.add (XFloat.mul self.pid.Kp pid_error) (XFloat.mul self.pid.Ki pid_integral))
    (XFloat.mul self.pid.Kd (XFloat.sub pid_error pid_previous_error))
  let pid_time_settled :=
    if XFloat.lt (XFloat.fabs pid_error) self.pid.tolerance then self.pid.time_settled + 10
    else 0
  let pid_time := self.pid.time + 10
  let data_overshoot :=
    if XFloat.lt (XFloat.mul (XFloat.ofInt self.sgn_save) pid_error) self.data.overshoot then
      XFloat.mul (XFloat.ofInt (-self.sgn_save)) pid_error
    else self.data.overshoot
  let data_time : XFloat := XFloat.ofInt pid_time
  let output := if XFloat.gt output self.pid.max then self.pid.max else output
  let output := if XFloat.lt output self.pid.min then self.pid.min else output
  ({ pid :=
       { Kp := self.pid.Kp
         Ki := self.pid.Ki
         Kd := self.pid.Kd
         error := pid_error
         integral := pid_integral
         previous_error := pid_previous_error
         integral_tolerance := self.pid.integral_tolerance
         tolerance := self.pid.tolerance
         max := self.pid.max
         min := self.pid.min
         time_settled := pid_time_settled
         settle_time := self.pid.settle_time
         time := pid_time }
     sgn_save := self.sgn_save
     data :=
       { overshoot := data_overshoot
         time := data_time } }, output)

/-- The controller over `XFloat` after the calls `update(e)` for the errors of
`errors`, in order. -/
def XPID.run (self : XPID) (errors : List XFloat) : XPID :=
  errors.foldl (fun p e => (p.update e).1) self

/-- The value `Kp*e + Ki*I + Kd*(e - p)` that `update(e)` computes before it
clamps: `I` is the integral term after the call (the gated one) and `p` the
error stored before the call. -/
def XPID.raw (self : XPID) (error : XFloat) : XFloat :=
  XFloat.add
    (XFloat.add (XFloat.mul self.pid.Kp error)
      (XFloat.mul self.pid.Ki (self.update error).1.pid.integral))
    (XFloat.mul self.pid.Kd (XFloat.sub error self.pid.error))

/-- A controller over the rationals read as a controller over `XFloat`. -/
def PID.toX (p : PID) : XPID :=
  { pid :=
      { Kp := .fin p.pid.Kp
        Ki := .fin p.pid.Ki
        Kd := .fin p.pid.Kd
        error := .fin p.pid.error
        integral := .fin p.pid.integral
        previous_error := .fin p.pid.previous_error
        integral_tolerance := .fin p.pid.integral_tolerance
        tolerance := .fin p.pid.tolerance
        max := .fin p.pid.max
        min := .fin p.pid.min
        time_settled := p.pid.time_settled
        settle_time := p.pid.settle_time
        time := p.pid.time }
    sgn_save := p.sgn_save
    data :=
      { overshoot := .fin p.data.overshoot
        time := .fin p.data.time } }

/-- The example controller `PID(1, 0, 0, 10, 3, 1, 30, 12, -12)` over
`XFloat`. -/
def xExampleController : XPID :=
  exampleController.toX

/-- The controller `PID(1, 0, 0, 10, 3, 1, 30, -12, 12)`, whose limits are the
wrong way round, over `XFloat`. -/
def xSwappedController : XPID :=
  swappedController.toX

/-! ## The conversion `float → int` -/

/-- Truncation leaves a whole number unchanged. -/
theorem truncate_intCast (n : ℤ) : truncate (n : ℚ) = n := by
  unfold truncate
  split_ifs
  · exact Int.floor_intCast n
  · exact Int.ceil_intCast n

theorem truncate_thirty : truncate 30 = 30 := by
  have h := truncate_intCast 30
  simpa using h

/-- Inside the range of `int` the conversion is the truncation. -/
theorem floatToInt_of_range (x : ℚ) (h : INT_MIN ≤ truncate x ∧ truncate x ≤ INT_MAX) :
    floatToInt x = some (truncate x) := by
  unfold floatToInt
  rw [if_pos h]

theorem floatToInt_thirty : floatToInt 30 = some 30 := by
  rw [floatToInt_of_range 30 (by rw [truncate_thirty]; decide), truncate_thirty]

/-- The constructor stores the truncated `settle_time` when it fits an `int`. -/
theorem PID.ctor_settle_time (mem : PID)
    (Kp Ki Kd error integral_tolerance tolerance settle_time max min : ℚ)
    (h : INT_MIN ≤ truncate settle_time ∧ truncate settle_time ≤ INT_MAX) :
    (PID.ctor mem Kp Ki Kd error integral_tolerance tolerance settle_time max min).pid.settle_time
      = truncate settle_time := by
  have hc : (PID.ctor mem Kp Ki Kd error integral_tolerance tolerance settle_time max
      min).pid.settle_time = (floatToInt settle_time).getD mem.pid.settle_time := rfl
  rw [hc, floatToInt_of_range settle_time h]
  rfl

theorem PID.ctor_settle_time_thirty (mem : PID)
    (Kp Ki Kd error integral_tolerance tolerance max min : ℚ) :
    (PID.ctor mem Kp Ki Kd error integral_tolerance tolerance 30 max min).pid.settle_time
      = 30 := by
  rw [PID.ctor_settle_time mem Kp Ki Kd error integral_tolerance tolerance 30 max min
    (by rw [truncate_thirty]; decide), truncate_thirty]

/-! ## The controller: what `update` does to each member -/

theorem PID.update_error (p : PID) (e : ℚ) : (p.update e).1.pid.error = e := rfl

theorem PID.update_previous_error (p : PID) (e : ℚ) :
    (p.update e).1.pid.previous_error = p.pid.error := rfl

theorem PID.update_integral (p : PID) (e : ℚ) :
    (p.update e).1.pid.integral =
      if sgn e ≠ sgn p.pid.error ∨ e = 0 ∨ |e| > p.pid.integral_tolerance then 0
      else if |e| < p.pid.integral_tolerance then p.pid.integral + e else p.pid.integral := rfl

theorem PID.update_time_settled (p : PID) (e : ℚ) :
    (p.update e).1.pid.time_settled =
      if |e| < p.pid.tolerance then p.pid.time_settled + 10 else 0 := rfl

theorem PID.update_time (p : PID) (e : ℚ) : (p.update e).1.pid.time = p.pid.time + 10 := rfl

theorem PID.update_data_time (p : PID) (e : ℚ) :
    (p.update e).1.data.time = ((p.pid.time + 10 : ℤ) : ℚ) := rfl

theorem PID.update_settle_time (p : PID) (e : ℚ) :
    (p.update e).1.pid.settle_time = p.pid.settle_time := rfl

theorem PID.update_tolerance (p : PID) (e : ℚ) :
    (p.update e).1.pid.tolerance = p.pid.tolerance := rfl

theorem PID.update_integral_tolerance (p : PID) (e : ℚ) :
    (p.update e).1.pid.integral_tolerance = p.pid.integral_tolerance := rfl

theorem PID.update_output (p : PID) (e : ℚ) :
    (p.update e).2 =
      if (if p.pid.Kp * e + p.pid.Ki * (p.update e).1.pid.integral + p.pid.Kd * (e - p.pid.error)
            > p.pid.max then p.pid.max
          else p.pid.Kp * e + p.pid.Ki * (p.update e).1.pid.integral
            + p.pid.Kd * (e - p.pid.error)) < p.pid.min
      then p.pid.min
      else (if p.pid.Kp * e + p.pid.Ki * (p.update e).1.pid.integral + p.pid.Kd * (e - p.pid.error)
            > p.pid.max then p.pid.max
          else p.pid.Kp * e + p.pid.Ki * (p.update e).1.pid.integral
            + p.pid.Kd * (e - p.pid.error)) := rfl

theorem PID.settled_iff (p : PID) : p.settled = true ↔ p.pid.settle_time ≤ p.pid.time_settled := by
  unfold PID.settled
  split_ifs with h
  · simpa using h
  · simpa using h

/-! ### Runs -/

theorem PID.run_nil (p : PID) : p.run [] = p := rfl

theorem PID.run_cons (p : PID) (e : ℚ) (es : List ℚ) :
    p.run (e :: es) = (p.update e).1.run es := rfl

theorem PID.run_snoc (p : PID) (es : List ℚ) (e : ℚ) :
    p.run (es ++ [e]) = ((p.run es).update e).1 := by
  simp [PID.run, List.foldl_append]

theorem PID.run_settle_time (p : PID) (es : List ℚ) :
    (p.run es).pid.settle_time = p.pid.settle_time := by
  induction es generalizing p with
  | nil => rfl
  | cons e es ih => rw [PID.run_cons, ih, PID.update_settle_time]

theorem PID.run_tolerance (p : PID) (es : List ℚ) :
    (p.run es).pid.tolerance = p.pid.tolerance := by
  induction es generalizing p with
  | nil => rfl
  | cons e es ih => rw [PID.run_cons, ih, PID.update_tolerance]

theorem PID.run_integral_tolerance (p : PID) (es : List ℚ) :
    (p.run es).pid.integral_tolerance = p.pid.integral_tolerance := by
  induction es generalizing p with
  | nil => rfl
  | cons e es ih => rw [PID.run_cons, ih, PID.update_integral_tolerance]

theorem PID.run_time (p : PID) (es : List ℚ) :
    (p.run es).pid.time = p.pid.time + 10 * (es.length : ℤ) := by
  induction es generalizing p with
  | nil => simp [PID.run_nil]
  | cons e es ih =>
    rw [PID.run_cons, ih, PID.update_time]
    simp only [List.length_cons, Nat.cast_add, Nat.cast_one]
    ring

theorem PID.run_error_snoc (p : PID) (es : List ℚ) (e : ℚ) :
    (p.run (es ++ [e])).pid.error = e := by
  rw [PID.run_snoc, PID.update_error]

theorem PID.run_time_settled (p : PID) (es : List ℚ)
    (h : ∀ e ∈ es, |e| < p.pid.tolerance) :
    (p.run es).pid.time_settled = p.pid.time_settled + 10 * (es.length : ℤ) := by
  induction es generalizing p with
  | nil => simp [PID.run_nil]
  | cons e es ih =>
    have he : |e| < p.pid.tolerance := h e (List.mem_cons_self _ _)
    have hes : ∀ x ∈ es, |x| < (p.update e).1.pid.tolerance := fun x hx => by
      rw [PID.update_tolerance]
      exact h x (List.mem_cons_of_mem _ hx)
    rw [PID.run_cons, ih _ hes, PID.update_time_settled, if_pos he]
    simp only [List.length_cons, Nat.cast_add, Nat.cast_one]
    ring

/-! ## The controller: the clamp, the output, the gate, settling -/

/-- The clamp over the rationals, where no value is NaN: when `min ≤ max`, a
raw value `Kp*e + Ki*integral + Kd*(e - previous_error)` above `max` returns
exactly `max`, one below `min` returns exactly `min`, and the returned value
lies in `[min, max]`.  The integral term of the raw value is the one the call
has just computed.  The statement over `float` values with NaN is proved on
`XPID.update` below. -/
theorem PID.update_clamps (p : PID) (e : ℚ) (h : p.pid.min ≤ p.pid.max) :
    (p.pid.Kp * e + p.pid.Ki * (p.update e).1.pid.integral + p.pid.Kd * (e - p.pid.error)
        > p.pid.max → (p.update e).2 = p.pid.max)
    ∧ (p.pid.Kp * e + p.pid.Ki * (p.update e).1.pid.integral + p.pid.Kd * (e - p.pid.error)
        < p.pid.min → (p.update e).2 = p.pid.min)
    ∧ p.pid.min ≤ (p.update e).2 ∧ (p.update e).2 ≤ p.pid.max := by
  rw [PID.update_output]
  refine ⟨fun hgt => ?_, fun hlt => ?_, ?_, ?_⟩
  · rw [if_pos hgt, if_neg (not_lt.mpr h)]
  · have hng : ¬ p.pid.Kp * e + p.pid.Ki * (p.update e).1.pid.integral
        + p.pid.Kd * (e - p.pid.error) > p.pid.max := not_lt.mpr (le_trans hlt.le h)
    rw [if_neg hng, if_pos hlt]
  · split_ifs <;> linarith
  · split_ifs <;> linarith

/-- The clamp at a concrete input: the example controller (limits `-12` and
`12`) fed the error `20` has raw value `20` and returns `12`. -/
theorem PID.update_clamps_witness :
    exampleController.pid.min ≤ exampleController.pid.max
    ∧ (exampleController.update 20).2 = exampleController.pid.max := by
  have hm : exampleController.pid.min ≤ exampleController.pid.max := by
    norm_num [exampleController, PID.ctor]
  refine ⟨hm, (PID.update_clamps exampleController 20 hm).1 ?_⟩
  norm_num [exampleController, PID.ctor, PID.update, zeroMem, sgn]

/-- C2.  `PID::update(e)` moves the stored error into `previous_error` and
stores `e`; whenever the raw value lies within `[min, max]` it returns exactly
`Kp*e + Ki*I + Kd*(e - p)`, where `p` is the error stored before the call and
`I` the integral term after this tick's anti-windup gate; on the first call
`p` is the error given to the constructor.  With `Kp = 1`,
`Ki = 0`, `Kd = 0`, initial error `10` and limits that contain the raw values,
the errors `[10, 5, 0.5, 0.5, 0.5]` give the outputs `[10, 5, 0.5, 0.5, 0.5]`,
whatever the storage, the tolerances and the settle time are. -/
theorem PID.update_returns_raw :
    (∀ (p : PID) (e : ℚ),
      (p.update e).1.pid.previous_error = p.pid.error
      ∧ (p.update e).1.pid.error = e
      ∧ (p.pid.min ≤ p.pid.Kp * e + p.pid.Ki * (p.update e).1.pid.integral
            + p.pid.Kd * (e - p.pid.error) →
          p.pid.Kp * e + p.pid.Ki * (p.update e).1.pid.integral
            + p.pid.Kd * (e - p.pid.error) ≤ p.pid.max →
          (p.update e).2 = p.pid.Kp * e + p.pid.Ki * (p.update e).1.pid.integral
            + p.pid.Kd * (e - p.pid.error)))
    ∧ (∀ (mem : PID) (Kp Ki Kd error integral_tolerance tolerance settle_time max min : ℚ),
        (PID.ctor mem Kp Ki Kd error integral_tolerance tolerance settle_time max
          min).pid.error = error)
    ∧ (∀ (mem : PID) (integral_tolerance tolerance settle_time max min : ℚ),
        10 ≤ max → min ≤ 1 / 2 →
        PID.outputs (PID.ctor mem 1 0 0 10 integral_tolerance tolerance settle_time max min)
          [10, 5, 1 / 2, 1 / 2, 1 / 2] = [10, 5, 1 / 2, 1 / 2, 1 / 2]) := by
  have key : ∀ (p : PID) (e : ℚ),
      p.pid.min ≤ p.pid.Kp * e + p.pid.Ki * (p.update e).1.pid.integral
            + p.pid.Kd * (e - p.pid.error) →
      p.pid.Kp * e + p.pid.Ki * (p.update e).1.pid.integral
            + p.pid.Kd * (e - p.pid.error) ≤ p.pid.max →
      (p.update e).2 = p.pid.Kp * e + p.pid.Ki * (p.update e).1.pid.integral
            + p.pid.Kd * (e - p.pid.error) := by
    intro p e hmin hmax
    rw [PID.update_output, if_neg (not_lt.mpr hmax), if_neg (not_lt.mpr hmin)]
  refine ⟨fun p e => ⟨rfl, rfl, key p e⟩, fun _ _ _ _ _ _ _ _ _ _ => rfl, ?_⟩
  intro mem it tol st max min hmax hmin
  have step : ∀ (q : PID) (e : ℚ), q.pid.Kp = 1 → q.pid.Ki = 0 → q.pid.Kd = 0 →
      q.pid.max = max → q.pid.min = min → 1 / 2 ≤ e → e ≤ 10 → (q.update e).2 = e := by
    intro q e hp hi hd hM hm h1 h2
    rw [key q e (by rw [hp, hi, hd, hm]; linarith) (by rw [hp, hi, hd, hM]; linarith),
      hp, hi, hd]
    ring
  have inv : ∀ (q : PID) (e : ℚ), q.pid.Kp = 1 ∧ q.pid.Ki = 0 ∧ q.pid.Kd = 0 ∧
      q.pid.max = max ∧ q.pid.min = min →
      (q.update e).1.pid.Kp = 1 ∧ (q.update e).1.pid.Ki = 0 ∧ (q.update e).1.pid.Kd = 0 ∧
      (q.update e).1.pid.max = max ∧ (q.update e).1.pid.min = min := fun q e h => h
  have h0 : (PID.ctor mem 1 0 0 10 it tol st max min).pid.Kp = 1
      ∧ (PID.ctor mem 1 0 0 10 it tol st max min).pid.Ki = 0
      ∧ (PID.ctor mem 1 0 0 10 it tol st max min).pid.Kd = 0
      ∧ (PID.ctor mem 1 0 0 10 it tol st max min).pid.max = max
      ∧ (PID.ctor mem 1 0 0 10 it tol st max min).pid.min = min := ⟨rfl, rfl, rfl, rfl, rfl⟩
  have h1 := inv _ 10 h0
  have h2 := inv _ 5 h1
  have h3 := inv _ (1 / 2) h2
  have h4 := inv _ (1 / 2) h3
  simp only [PID.outputs]
  rw [step _ 10 h0.1 h0.2.1 h0.2.2.1 h0.2.2.2.1 h0.2.2.2.2 (by norm_num) (by norm_num),
    step _ 5 h1.1 h1.2.1 h1.2.2.1 h1.2.2.2.1 h1.2.2.2.2 (by norm_num) (by norm_num),
    step _ (1 / 2) h2.1 h2.2.1 h2.2.2.1 h2.2.2.2.1 h2.2.2.2.2 (by norm_num) (by norm_num),
    step _ (1 / 2) h3.1 h3.2.1 h3.2.2.1 h3.2.2.2.1 h3.2.2.2.2 (by norm_num) (by norm_num),
    step _ (1 / 2) h4.1 h4.2.1 h4.2.2.1 h4.2.2.2.1 h4.2.2.2.2 (by norm_num) (by norm_num)]

/-- The scenario of C2 at a concrete controller: storage that is not zeroed,
integral tolerance `3`, tolerance `1`, settle time `30`, limits `-12` and `12`. -/
theorem PID.update_returns_raw_witness :
    PID.outputs (PID.ctor dirtyMem 1 0 0 10 3 1 30 12 (-12)) [10, 5, 1 / 2, 1 / 2, 1 / 2]
      = [10, 5, 1 / 2, 1 / 2, 1 / 2] :=
  PID.update_returns_raw.2.2 dirtyMem 3 1 30 12 (-12) (by norm_num) (by norm_num)

/-- C3.  The anti-windup gate: after `update(e)` the integral term is `0`
whenever the sign (`sgn`) of `e` differs from that of the previous error, or
`e` is `0`, or `|e|` exceeds `integral_tolerance`, whatever the integral term
was before.  So it is `0` after every tick of a sequence of errors whose
magnitudes are all above `integral_tolerance`, and `0` at the tick where two
consecutive errors of a sequence differ in sign. -/
theorem PID.anti_windup_gate :
    (∀ (p : PID) (e : ℚ),
      sgn e ≠ sgn p.pid.error ∨ e = 0 ∨ |e| > p.pid.integral_tolerance →
      (p.update e).1.pid.integral = 0)
    ∧ (∀ (p : PID) (es : List ℚ), (∀ x ∈ es, |x| > p.pid.integral_tolerance) →
        ∀ k, 0 < k → k ≤ es.length → (p.run (es.take k)).pid.integral = 0)
    ∧ (∀ (p : PID) (pre : List ℚ) (a b : ℚ), sgn b ≠ sgn a →
        (p.run (pre ++ [a, b])).pid.integral = 0)
    ∧ (∀ (p : PID) (pre : List ℚ) (a b : ℚ), a * b < 0 →
        (p.run (pre ++ [a, b])).pid.integral = 0) := by
  have gate : ∀ (p : PID) (e : ℚ),
      sgn e ≠ sgn p.pid.error ∨ e = 0 ∨ |e| > p.pid.integral_tolerance →
      (p.update e).1.pid.integral = 0 := by
    intro p e h
    rw [PID.update_integral, if_pos h]
  have cross : ∀ (p : PID) (pre : List ℚ) (a b : ℚ), sgn b ≠ sgn a →
      (p.run (pre ++ [a, b])).pid.integral = 0 := by
    intro p pre a b hab
    have hsplit : pre ++ [a, b] = (pre ++ [a]) ++ [b] := by simp
    rw [hsplit, PID.run_snoc]
    apply gate
    left
    rw [PID.run_error_snoc]
    exact hab
  refine ⟨gate, ?_, cross, ?_⟩
  · intro p es hes k hk hkl
    obtain ⟨j, rfl⟩ : ∃ j, k = j + 1 := ⟨k - 1, by omega⟩
    have hj : j < es.length := by omega
    have htake : es.take (j + 1) = es.take j ++ [es[j]] := by
      rw [List.take_succ, List.getElem?_eq_getElem hj]
      rfl
    rw [htake, PID.run_snoc]
    apply gate
    right; right
    rw [PID.run_integral_tolerance]
    exact hes _ (List.getElem_mem _)
  · intro p pre a b hab
    apply cross
    unfold sgn
    rcases lt_trichotomy a 0 with ha | ha | ha
    · have hb : ¬ b < 0 := fun hb => by nlinarith
      rw [if_pos ha, if_neg hb]
      decide
    · rw [ha] at hab
      simp at hab
    · have hb : b < 0 := by nlinarith
      rw [if_pos hb, if_neg (not_lt.mpr ha.le)]
      decide

/-- The gate at concrete inputs: the example controller (integral tolerance
`3`, stored error `10`) fed `[5, 4]` has a zero integral after both ticks, and
fed `[2, -1]` has a zero integral at the crossing tick. -/
theorem PID.anti_windup_gate_witness :
    (exampleController.run ([5, 4].take 2)).pid.integral = 0
    ∧ (exampleController.run ([] ++ [2, -1])).pid.integral = 0 :=
  ⟨PID.anti_windup_gate.2.1 exampleController [5, 4]
      (by
        intro x hx
        have h3 : exampleController.pid.integral_tolerance = 3 := rfl
        rw [h3]
        rcases List.mem_cons.mp hx with rfl | hx
        · norm_num
        · rcases List.mem_cons.mp hx with rfl | hx
          · norm_num
          · simp at hx)
      2 (by norm_num) (by simp),
    PID.anti_windup_gate.2.2.1 exampleController [] 2 (-1) (by norm_num [sgn])⟩

/-- C4.  Settle detection: from a settle counter of `0` and with
`settle_time > 0`, after `k` consecutive updates with `|error| < tolerance`
the counter is `10*k`, and `settled()` is true exactly when
`10*k ≥ settle_time`; one update with `|error| ≥ tolerance` resets the counter
to `0` and makes `settled()` false.  A freshly constructed controller has the
counter `0`.  With tolerance `1` and settle time `30` the errors
`[10, 5, 0.5, 0.5, 0.5]` give `settled()` false after the first four updates
and true after the fifth. -/
theorem PID.settle_detection :
    (∀ (p : PID) (es : List ℚ), 0 < p.pid.settle_time → p.pid.time_settled = 0 →
        (∀ e ∈ es, |e| < p.pid.tolerance) →
        (p.run es).pid.time_settled = 10 * (es.length : ℤ)
        ∧ ((p.run es).settled = true ↔ p.pid.settle_time ≤ 10 * (es.length : ℤ))
        ∧ ((p.run es).settled = false ↔ 10 * (es.length : ℤ) < p.pid.settle_time))
    ∧ (∀ (p : PID) (e : ℚ), 0 < p.pid.settle_time → |e| ≥ p.pid.tolerance →
        (p.update e).1.pid.time_settled = 0 ∧ (p.update e).1.settled = false)
    ∧ (∀ (mem : PID) (Kp Ki Kd error integral_tolerance tolerance settle_time max min : ℚ),
        (PID.ctor mem Kp Ki Kd error integral_tolerance tolerance settle_time max
          min).pid.time_settled = 0)
    ∧ (∀ (mem : PID) (Kp Ki Kd integral_tolerance max min : ℚ),
        PID.settledAfter (PID.ctor mem Kp Ki Kd 10 integral_tolerance 1 30 max min)
          [10, 5, 1 / 2, 1 / 2, 1 / 2] = [false, false, false, false, true]) := by
  refine ⟨?_, ?_, fun _ _ _ _ _ _ _ _ _ _ => rfl, ?_⟩
  · intro p es _ h0 hes
    have hc : (p.run es).pid.time_settled = 10 * (es.length : ℤ) := by
      rw [PID.run_time_settled p es hes, h0, zero_add]
    have ht : (p.run es).settled = true ↔ p.pid.settle_time ≤ 10 * (es.length : ℤ) := by
      rw [PID.settled_iff, hc, PID.run_settle_time]
    refine ⟨hc, ht, ?_⟩
    rw [← not_le, ← ht]
    simp
  · intro p e hpos he
    have hc : (p.update e).1.pid.time_settled = 0 := by
      rw [PID.update_time_settled, if_neg (not_lt.mpr he)]
    refine ⟨hc, ?_⟩
    have hn : ¬ (p.update e).1.settled = true := by
      rw [PID.settled_iff, hc, PID.update_settle_time]
      exact not_le.mpr hpos
    simpa using hn
  · intro mem Kp Ki Kd it max min
    norm_num [PID.settledAfter, PID.settled, PID.update, PID.ctor, floatToInt_thirty,
      abs_of_pos]

/-- Settle detection at a concrete input: the example controller (tolerance
`1`, settle time `30`, counter `0`) fed three errors `0.5` has the counter at
`30` and is settled. -/
theorem PID.settle_detection_witness :
    (exampleController.run [1 / 2, 1 / 2, 1 / 2]).pid.time_settled = 30
    ∧ (exampleController.run [1 / 2, 1 / 2, 1 / 2]).settled = true := by
  have h := PID.settle_detection.1 exampleController [1 / 2, 1 / 2, 1 / 2]
    (by norm_num [exampleController, PID.ctor, floatToInt_thirty]) rfl
    (by
      intro e he
      have h1 : exampleController.pid.tolerance = 1 := rfl
      have h2 : e = 1 / 2 := by simpa using he
      rw [h1, h2]
      norm_num [abs_of_pos])
  refine ⟨by simpa using h.1, h.2.1.mpr ?_⟩
  norm_num [exampleController, PID.ctor, floatToInt_thirty]

/-- C5, as stated, fails: built with `settle_time = 10.5` and tolerance `1`,
after one update with error `0.5` the elapsed settle duration is `10`, which is
below `10.5`, and `settled()` is true. -/
theorem PID.settled_not_iff_supplied :
    ((PID.ctor zeroMem 1 0 0 10 3 1 (21 / 2) 12 (-12)).run [1 / 2]).settled = true
    ∧ ((PID.ctor zeroMem 1 0 0 10 3 1 (21 / 2) 12 (-12)).run [1 / 2]).pid.time_settled = 10
    ∧ ¬ ((21 / 2 : ℚ) ≤
      (((PID.ctor zeroMem 1 0 0 10 3 1 (21 / 2) 12 (-12)).run [1 / 2]).pid.time_settled : ℚ)) := by
  have ht : truncate (21 / 2) = 10 := by
    unfold truncate
    rw [if_pos (by norm_num), Int.floor_eq_iff]
    norm_num
  have hf : floatToInt (21 / 2) = some 10 := by
    rw [floatToInt_of_range (21 / 2) (by rw [ht]; decide), ht]
  norm_num [PID.run, PID.settled, PID.update, PID.ctor, hf, abs_of_pos, zeroMem]

/-- C5, amended.  For every `settle_time` passed to the constructor whose
truncation toward zero fits a 32-bit `int`, and every state reached from the
constructed controller by updates, `settled()` is true exactly when the
elapsed settle duration is at least `settle_time` truncated toward zero (the
value of the `int` member it is stored in); when `settle_time` is a whole
number, that is the value the caller supplied. -/
theorem PID.settled_iff_truncated (mem : PID)
    (Kp Ki Kd error integral_tolerance tolerance settle_time max min : ℚ) (es : List ℚ)
    (hr : INT_MIN ≤ truncate settle_time ∧ truncate settle_time ≤ INT_MAX) :
    (((PID.ctor mem Kp Ki Kd error integral_tolerance tolerance settle_time max min).run
        es).settled = true
      ↔ truncate settle_time ≤
        ((PID.ctor mem Kp Ki Kd error integral_tolerance tolerance settle_time max min).run
          es).pid.time_settled)
    ∧ (∀ n : ℤ, settle_time = (n : ℚ) →
      (((PID.ctor mem Kp Ki Kd error integral_tolerance tolerance settle_time max min).run
          es).settled = true
        ↔ settle_time ≤
          (((PID.ctor mem Kp Ki Kd error integral_tolerance tolerance settle_time max min).run
            es).pid.time_settled : ℚ))) := by
  have h : ((PID.ctor mem Kp Ki Kd error integral_tolerance tolerance settle_time max min).run
        es).settled = true
      ↔ truncate settle_time ≤
        ((PID.ctor mem Kp Ki Kd error integral_tolerance tolerance settle_time max min).run
          es).pid.time_settled := by
    rw [PID.settled_iff, PID.run_settle_time,
      PID.ctor_settle_time mem Kp Ki Kd error integral_tolerance tolerance settle_time max min hr]
  refine ⟨h, fun n hn => ?_⟩
  rw [h, hn, truncate_intCast, Int.cast_le]

/-- The amended C5 at a concrete input: `settle_time = 30` fits an `int`;
built with it, the example controller after three updates with error `0.5` is
settled, and `30` is at most its elapsed settle duration. -/
theorem PID.settled_iff_truncated_witness :
    (INT_MIN ≤ truncate 30 ∧ truncate 30 ≤ INT_MAX)
    ∧ ((PID.ctor zeroMem 1 0 0 10 3 1 30 12 (-12)).run [1 / 2, 1 / 2, 1 / 2]).settled = true
    ∧ (30 : ℚ) ≤ (((PID.ctor zeroMem 1 0 0 10 3 1 30 12 (-12)).run
        [1 / 2, 1 / 2, 1 / 2]).pid.time_settled : ℚ) := by
  have hr : INT_MIN ≤ truncate 30 ∧ truncate 30 ≤ INT_MAX := by
    rw [truncate_thirty]
    decide
  have h30 : (30 : ℚ) ≤ (((PID.ctor zeroMem 1 0 0 10 3 1 30 12 (-12)).run
      [1 / 2, 1 / 2, 1 / 2]).pid.time_settled : ℚ) := by
    norm_num [PID.run, PID.update, PID.ctor, abs_of_pos]
  exact ⟨hr, ((PID.settled_iff_truncated zeroMem 1 0 0 10 3 1 30 12 (-12)
    [1 / 2, 1 / 2, 1 / 2] hr).2 30 (by norm_num)).mpr h30, h30⟩

/-- C6: the recorded overshoot is not the most negative `sgn(e0)*e_i`.  The
example controller has initial error `10`.  After `update(5)` the recorded
overshoot is `-5` although no error was below `5`; a later `update(-2)`, the
most negative error so far, leaves it at `-5`; and after the errors
`[5, -7, -1]` the recorded value is `1`: the update with `-1`, which
overshoots less than `-7`, has changed it. -/
theorem PID.overshoot_not_worst :
    (exampleController.run [5]).get_data.overshoot = -5
    ∧ (exampleController.run [5, -2]).get_data.overshoot = -5
    ∧ (exampleController.run [5, -7]).get_data.overshoot = 7
    ∧ (exampleController.run [5, -7, -1]).get_data.overshoot = 1 := by
  norm_num [exampleController, PID.run, PID.get_data, PID.update, PID.ctor, sgn, zeroMem]

/-- After `n` updates `get_data().time` is `10*n` above what `pid.time` held
when the constructor returned, which is what the storage held before. -/
theorem PID.run_data_time (mem : PID)
    (Kp Ki Kd error integral_tolerance tolerance settle_time max min : ℚ)
    (e : ℚ) (es : List ℚ) :
    ((PID.ctor mem Kp Ki Kd error integral_tolerance tolerance settle_time max min).run
      (es ++ [e])).get_data.time = (mem.pid.time : ℚ) + 10 * ((es ++ [e]).length : ℚ) := by
  rw [PID.run_snoc]
  unfold PID.get_data
  rw [PID.update_data_time, PID.run_time]
  have h : (PID.ctor mem Kp Ki Kd error integral_tolerance tolerance settle_time max
    min).pid.time = mem.pid.time := rfl
  rw [h]
  push_cast
  simp only [List.length_append, List.length_singleton, Nat.cast_add, Nat.cast_one]
  ring

/-- C7: the constructor does not zero `pid.integral` and `pid.time`.  Built in
storage where `pid.integral` held `7` and `pid.time` held `3`, the controller
has the integral term `7` and `pid.time = 3` when the constructor returns
(`time_settled` and `data.time` are `0`); after one `update(1)` the integral
term is `8` and `get_data().time` is `13`, not `10`. -/
theorem PID.ctor_keeps_storage :
    (PID.ctor dirtyMem 1 0 0 10 3 1 30 12 (-12)).pid.integral = 7
    ∧ (PID.ctor dirtyMem 1 0 0 10 3 1 30 12 (-12)).pid.time = 3
    ∧ (PID.ctor dirtyMem 1 0 0 10 3 1 30 12 (-12)).pid.time_settled = 0
    ∧ (PID.ctor dirtyMem 1 0 0 10 3 1 30 12 (-12)).get_data.time = 0
    ∧ ((PID.ctor dirtyMem 1 0 0 10 3 1 30 12 (-12)).run [1]).pid.integral = 8
    ∧ ((PID.ctor dirtyMem 1 0 0 10 3 1 30 12 (-12)).run [1]).get_data.time = 13 := by
  norm_num [PID.run, PID.get_data, PID.update, PID.ctor, sgn, dirtyMem]

/-! ## The odometry loop: one iteration -/

/-- Polar form and back, first coordinate: `polarRadius * cos localPolarAngle`
is `localX`, in both branches of the polar conversion. -/
theorem polar_cos (x y : ℝ) :
    (if x = 0 ∧ y = 0 then 0 else sqrtf (powf x 2 + powf y 2))
      * Real.cos (if x = 0 ∧ y = 0 then 0 else atan2f y x) = x := by
  by_cases h : x = 0 ∧ y = 0
  · rw [if_pos h, zero_mul, h.1]
  · rw [if_neg h, if_neg h]
    have hz : (⟨x, y⟩ : ℂ) ≠ 0 := by
      intro hc
      exact h ⟨congrArg Complex.re hc, congrArg Complex.im hc⟩
    have habs : Complex.abs ⟨x, y⟩ = sqrtf (powf x 2 + powf y 2) := by
      unfold sqrtf powf
      rw [Complex.abs_apply, Complex.normSq_mk, Real.rpow_two, Real.rpow_two, sq, sq]
    have hpos : Complex.abs ⟨x, y⟩ ≠ 0 := (map_ne_zero Complex.abs).mpr hz
    unfold atan2f
    rw [Complex.cos_arg hz, ← habs]
    field_simp

/-- Polar form and back, second coordinate: `polarRadius * sin localPolarAngle`
is `localY`, in both branches of the polar conversion. -/
theorem polar_sin (x y : ℝ) :
    (if x = 0 ∧ y = 0 then 0 else sqrtf (powf x 2 + powf y 2))
      * Real.sin (if x = 0 ∧ y = 0 then 0 else atan2f y x) = y := by
  by_cases h : x = 0 ∧ y = 0
  · rw [if_pos h, zero_mul, h.2]
  · rw [if_neg h, if_neg h]
    have hz : (⟨x, y⟩ : ℂ) ≠ 0 := by
      intro hc
      exact h ⟨congrArg Complex.re hc, congrArg Complex.im hc⟩
    have habs : Complex.abs ⟨x, y⟩ = sqrtf (powf x 2 + powf y 2) := by
      unfold sqrtf powf
      rw [Complex.abs_apply, Complex.normSq_mk, Real.rpow_two, Real.rpow_two, sq, sq]
    have hpos : Complex.abs ⟨x, y⟩ ≠ 0 := (map_ne_zero Complex.abs).mpr hz
    unfold atan2f
    rw [Complex.sin_arg, ← habs]
    field_simp

theorem odom.cycle_polar_cos (self : odom) (prev : Previous) (r : Readings) :
    (self.cycle prev r).polarRadius * Real.cos (self.cycle prev r).localPolarAngle
      = (self.cycle prev r).localX :=
  polar_cos _ _

theorem odom.cycle_polar_sin (self : odom) (prev : Previous) (r : Readings) :
    (self.cycle prev r).polarRadius * Real.sin (self.cycle prev r).localPolarAngle
      = (self.cycle prev r).localY :=
  polar_sin _ _

theorem odom.cycle_globalPolarAngle (self : odom) (prev : Previous) (r : Readings) :
    (self.cycle prev r).globalPolarAngle
      = (self.cycle prev r).localPolarAngle - prev.previousHeading
        - (self.cycle prev r).changeInHeading / 2 := rfl

/-- The pose change of one iteration is the local displacement turned by the
heading before the iteration plus half the heading change: first coordinate. -/
theorem odom.cycle_changeinX (self : odom) (prev : Previous) (r : Readings) :
    (self.cycle prev r).changeinX
      = (self.cycle prev r).localX
          * Real.cos (prev.previousHeading + (self.cycle prev r).changeInHeading / 2)
        + (self.cycle prev r).localY
          * Real.sin (prev.previousHeading + (self.cycle prev r).changeInHeading / 2) := by
  have h : (self.cycle prev r).changeinX
      = (self.cycle prev r).polarRadius * Real.cos ((self.cycle prev r).localPolarAngle
        - (prev.previousHeading + (self.cycle prev r).changeInHeading / 2)) := by
    have hx : (self.cycle prev r).changeinX
        = (self.cycle prev r).polarRadius * Real.cos (self.cycle prev r).globalPolarAngle := rfl
    rw [hx, odom.cycle_globalPolarAngle, sub_sub]
  rw [h, Real.cos_sub, ← odom.cycle_polar_cos self prev r, ← odom.cycle_polar_sin self prev r]
  ring

/-- The pose change of one iteration, second coordinate. -/
theorem odom.cycle_changeinY (self : odom) (prev : Previous) (r : Readings) :
    (self.cycle prev r).changeinY
      = (self.cycle prev r).localY
          * Real.cos (prev.previousHeading + (self.cycle prev r).changeInHeading / 2)
        - (self.cycle prev r).localX
          * Real.sin (prev.previousHeading + (self.cycle prev r).changeInHeading / 2) := by
  have h : (self.cycle prev r).changeinY
      = (self.cycle prev r).polarRadius * Real.sin ((self.cycle prev r).localPolarAngle
        - (prev.previousHeading + (self.cycle prev r).changeInHeading / 2)) := by
    have hy : (self.cycle prev r).changeinY
        = (self.cycle prev r).polarRadius * Real.sin (self.cycle prev r).globalPolarAngle := rfl
    rw [hy, odom.cycle_globalPolarAngle, sub_sub]
  rw [h, Real.sin_sub, ← odom.cycle_polar_cos self prev r, ← odom.cycle_polar_sin self prev r]
  ring

/-- The squared length of the pose change of one iteration is that of the
local displacement. -/
theorem odom.cycle_change_sq (self : odom) (prev : Previous) (r : Readings) :
    (self.cycle prev r).changeinX ^ 2 + (self.cycle prev r).changeinY ^ 2
      = (self.cycle prev r).localX ^ 2 + (self.cycle prev r).localY ^ 2 := by
  rw [odom.cycle_changeinX, odom.cycle_changeinY]
  have h := Real.sin_sq_add_cos_sq
    (prev.previousHeading + (self.cycle prev r).changeInHeading / 2)
  nlinarith [h]

theorem odom.cycle_localX (self : odom) (prev : Previous) (r : Readings) :
    (self.cycle prev r).localX =
      if (self.cycle prev r).changeInHeading = 0 then (self.cycle prev r).changeInHorizontal
      else (2 * Real.sin ((self.cycle prev r).changeInHeading / 2))
        * (((self.cycle prev r).changeInHorizontal / (self.cycle prev r).changeInHeading)
          + self.horizontalDistanceFromCenter) := rfl

theorem odom.cycle_localY (self : odom) (prev : Previous) (r : Readings) :
    (self.cycle prev r).localY =
      if (self.cycle prev r).changeInHeading = 0 then (self.cycle prev r).changeInVertical
      else (2 * Real.sin ((self.cycle prev r).changeInHeading / 2))
        * (((self.cycle prev r).changeInVertical / (self.cycle prev r).changeInHeading)
          + self.verticalDistanceFromCenter) := rfl

theorem odom.tick_getX (self : odom) (prev : Previous) (r : Readings) :
    (self.tick prev r).1.getX = self.getX + (self.cycle prev r).changeinX := rfl

theorem odom.tick_getY (self : odom) (prev : Previous) (r : Readings) :
    (self.tick prev r).1.getY = self.getY + (self.cycle prev r).changeinY := rfl

/-- An iteration with no heading change: the local displacement is the raw
`(horizontal, vertical)` delta and the pose moves by that delta turned by the
heading. -/
theorem odom.cycle_straight (self : odom) (prev : Previous) (r : Readings)
    (h0 : (self.cycle prev r).changeInHeading = 0) :
    (self.cycle prev r).localX = (self.cycle prev r).changeInHorizontal
    ∧ (self.cycle prev r).localY = (self.cycle prev r).changeInVertical
    ∧ (self.cycle prev r).changeinX
        = (self.cycle prev r).changeInHorizontal * Real.cos prev.previousHeading
          + (self.cycle prev r).changeInVertical * Real.sin prev.previousHeading
    ∧ (self.cycle prev r).changeinY
        = (self.cycle prev r).changeInVertical * Real.cos prev.previousHeading
          - (self.cycle prev r).changeInHorizontal * Real.sin prev.previousHeading := by
  have hx : (self.cycle prev r).localX = (self.cycle prev r).changeInHorizontal := by
    rw [odom.cycle_localX, if_pos h0]
  have hy : (self.cycle prev r).localY = (self.cycle prev r).changeInVertical := by
    rw [odom.cycle_localY, if_pos h0]
  refine ⟨hx, hy, ?_, ?_⟩
  · rw [odom.cycle_changeinX, hx, hy, h0, zero_div, add_zero]
  · rw [odom.cycle_changeinY, hx, hy, h0, zero_div, add_zero]

/-- C8.  Straight-line motion: when the heading reading stays at `theta`
(the kept `previousHeading`) and the linearised wheel positions advance by
`(dH, dV)` in each of `N` iterations (`N` the number of readings), the loop
changes `x` by `N*(dH*cos theta + dV*sin theta)` and `y` by
`N*(dV*cos theta - dH*sin theta)`, from every starting pose; on every such
iteration `changeInHeading = 0` and the local displacement is `(dH, dV)`; at
`theta = 0` the changes are `N*dH` and `N*dV`. -/
theorem odom.straight_line (self : odom) (prev : Previous) (rs : List Readings) (dH dV : ℝ)
    (h : ∀ (i : ℕ) (hi : i < rs.length),
      (self.cycle prev rs[i]).verticalPosition = prev.previousVertical + (i + 1) * dV
      ∧ (self.cycle prev rs[i]).horizontalPosition = prev.previousHorizontal + (i + 1) * dH
      ∧ (self.cycle prev rs[i]).heading = prev.previousHeading) :
    ((self.ticks prev rs).1.getX = self.getX
        + rs.length * (dH * Real.cos prev.previousHeading + dV * Real.sin prev.previousHeading)
      ∧ (self.ticks prev rs).1.getY = self.getY
        + rs.length * (dV * Real.cos prev.previousHeading - dH * Real.sin prev.previousHeading))
    ∧ (prev.previousHeading = 0 →
        (self.ticks prev rs).1.getX = self.getX + rs.length * dH
        ∧ (self.ticks prev rs).1.getY = self.getY + rs.length * dV)
    ∧ (∀ (i : ℕ) (hi : i < rs.length),
        (odom.cycle (self.ticks prev (rs.take i)).1 (self.ticks prev (rs.take i)).2
            rs[i]).changeInHeading = 0
        ∧ (odom.cycle (self.ticks prev (rs.take i)).1 (self.ticks prev (rs.take i)).2
            rs[i]).localX = dH
        ∧ (odom.cycle (self.ticks prev (rs.take i)).1 (self.ticks prev (rs.take i)).2
            rs[i]).localY = dV) := by
  have main : ∀ (rs : List Readings) (self : odom) (prev : Previous),
      (∀ (i : ℕ) (hi : i < rs.length),
        (self.cycle prev rs[i]).verticalPosition = prev.previousVertical + (i + 1) * dV
        ∧ (self.cycle prev rs[i]).horizontalPosition = prev.previousHorizontal + (i + 1) * dH
        ∧ (self.cycle prev rs[i]).heading = prev.previousHeading) →
      ((self.ticks prev rs).1.getX = self.getX
          + rs.length * (dH * Real.cos prev.previousHeading + dV * Real.sin prev.previousHeading)
        ∧ (self.ticks prev rs).1.getY = self.getY
          + rs.length * (dV * Real.cos prev.previousHeading
            - dH * Real.sin prev.previousHeading))
      ∧ (∀ (i : ℕ) (hi : i < rs.length),
        (odom.cycle (self.ticks prev (rs.take i)).1 (self.ticks prev (rs.take i)).2
            rs[i]).changeInHeading = 0
        ∧ (odom.cycle (self.ticks prev (rs.take i)).1 (self.ticks prev (rs.take i)).2
            rs[i]).localX = dH
        ∧ (odom.cycle (self.ticks prev (rs.take i)).1 (self.ticks prev (rs.take i)).2
            rs[i]).localY = dV) := by
    intro rs
    induction rs with
    | nil =>
      intro self prev _
      refine ⟨⟨?_, ?_⟩, fun i hi => absurd hi (Nat.not_lt_zero i)⟩
      · simp [odom.ticks]
      · simp [odom.ticks]
    | cons r rs ih =>
      intro self prev h
      obtain ⟨hv, hh, hθ⟩ := h 0 (Nat.zero_lt_succ _)
      simp only [List.getElem_cons_zero, Nat.cast_zero, zero_add, one_mul] at hv hh hθ
      have hdθ : (self.cycle prev r).changeInHeading = 0 := by
        have : (self.cycle prev r).changeInHeading
            = (self.cycle prev r).heading - prev.previousHeading := rfl
        rw [this, hθ, sub_self]
      have hdV : (self.cycle prev r).changeInVertical = dV := by
        have : (self.cycle prev r).changeInVertical
            = (self.cycle prev r).verticalPosition - prev.previousVertical := rfl
        rw [this, hv]
        ring
      have hdH : (self.cycle prev r).changeInHorizontal = dH := by
        have : (self.cycle prev r).changeInHorizontal
            = (self.cycle prev r).horizontalPosition - prev.previousHorizontal := rfl
        rw [this, hh]
        ring
      obtain ⟨hlx, hly, hcx, hcy⟩ := odom.cycle_straight self prev r hdθ
      rw [hdH] at hlx
      rw [hdV] at hly
      rw [hdH, hdV] at hcx hcy
      have hp : (self.tick prev r).2.previousHeading = prev.previousHeading := hθ
      have hnext : ∀ (i : ℕ) (hi : i < rs.length),
          (odom.cycle (self.tick prev r).1 (self.tick prev r).2 rs[i]).verticalPosition
            = (self.tick prev r).2.previousVertical + (i + 1) * dV
          ∧ (odom.cycle (self.tick prev r).1 (self.tick prev r).2 rs[i]).horizontalPosition
            = (self.tick prev r).2.previousHorizontal + (i + 1) * dH
          ∧ (odom.cycle (self.tick prev r).1 (self.tick prev r).2 rs[i]).heading
            = (self.tick prev r).2.previousHeading := by
        intro i hi
        obtain ⟨hv1, hh1, hθ1⟩ := h (i + 1) (Nat.succ_lt_succ hi)
        simp only [List.getElem_cons_succ, Nat.cast_add, Nat.cast_one] at hv1 hh1 hθ1
        have e1 : (odom.cycle (self.tick prev r).1 (self.tick prev r).2 rs[i]).verticalPosition
            = (self.cycle prev rs[i]).verticalPosition := rfl
        have e2 : (odom.cycle (self.tick prev r).1 (self.tick prev r).2 rs[i]).horizontalPosition
            = (self.cycle prev rs[i]).horizontalPosition := rfl
        have e3 : (odom.cycle (self.tick prev r).1 (self.tick prev r).2 rs[i]).heading
            = (self.cycle prev rs[i]).heading := rfl
        have e4 : (self.tick prev r).2.previousVertical = (self.cycle prev r).verticalPosition :=
          rfl
        have e5 : (self.tick prev r).2.previousHorizontal
            = (self.cycle prev r).horizontalPosition := rfl
        rw [e1, e2, e3, e4, e5, hv1, hh1, hθ1, hv, hh, hp]
        refine ⟨by ring, by ring, rfl⟩
      obtain ⟨⟨ihx, ihy⟩, ihl⟩ := ih (self.tick prev r).1 (self.tick prev r).2 hnext
      have hticks : odom.ticks self prev (r :: rs)
          = odom.ticks (self.tick prev r).1 (self.tick prev r).2 rs := rfl
      refine ⟨⟨?_, ?_⟩, ?_⟩
      · rw [hticks, ihx, hp, odom.tick_getX, hcx]
        simp only [List.length_cons, Nat.cast_add, Nat.cast_one]
        ring
      · rw [hticks, ihy, hp, odom.tick_getY, hcy]
        simp only [List.length_cons, Nat.cast_add, Nat.cast_one]
        ring
      · intro i hi
        cases i with
        | zero => exact ⟨hdθ, hlx, hly⟩
        | succ j => exact ihl j (Nat.lt_of_succ_lt_succ hi)
  obtain ⟨hxy, hloc⟩ := main rs self prev h
  refine ⟨hxy, fun h0 => ?_, hloc⟩
  obtain ⟨hx, hy⟩ := hxy
  rw [hx, hy, h0, Real.cos_zero, Real.sin_zero]
  constructor <;> ring

/-- The straight-line claim at a concrete input: from pose `(0, 0)` at heading
`0`, two iterations that each advance the horizontal wheel by `1` inch and the
vertical wheel by `2` inches move the pose by `2*1` and `2*2`. -/
theorem odom.straight_line_witness :
    (centeredOdom.ticks zeroPrevious straightReadings).1.getX
        = centeredOdom.getX + (straightReadings.length : ℝ) * 1
    ∧ (centeredOdom.ticks zeroPrevious straightReadings).1.getY
        = centeredOdom.getY + (straightReadings.length : ℝ) * 2 :=
  (odom.straight_line centeredOdom zeroPrevious straightReadings 1 2
    (by
      intro i hi
      have hlen : straightReadings.length = 2 := rfl
      rw [hlen] at hi
      match i, hi with
      | 0, _ =>
        simp [straightReadings, odom.cycle, centeredOdom, zeroPrevious, readingsAt,
          odom.degToRad]
      | 1, _ =>
        simp [straightReadings, odom.cycle, centeredOdom, zeroPrevious, readingsAt,
          odom.degToRad]
        norm_num)).2.1 rfl

/-- An iteration with zero wheel deltas and a nonzero heading change: the
local displacement is `2*sin(d/2)` times the offsets of the tracking wheels. -/
theorem odom.cycle_pure_rotation (self : odom) (prev : Previous) (r : Readings)
    (hV : (self.cycle prev r).changeInVertical = 0)
    (hH : (self.cycle prev r).changeInHorizontal = 0)
    (hd : (self.cycle prev r).changeInHeading ≠ 0) :
    (self.cycle prev r).localX
        = 2 * Real.sin ((self.cycle prev r).changeInHeading / 2)
          * self.horizontalDistanceFromCenter
    ∧ (self.cycle prev r).localY
        = 2 * Real.sin ((self.cycle prev r).changeInHeading / 2)
          * self.verticalDistanceFromCenter := by
  constructor
  · rw [odom.cycle_localX, if_neg hd, hH, zero_div, zero_add]
  · rw [odom.cycle_localY, if_neg hd, hV, zero_div, zero_add]

/-- An iteration with zero wheel deltas: the squared length of the pose change
is `4*sin(d/2)^2` times the squared length of the offsets, also when the
heading change `d` is zero. -/
theorem odom.cycle_pure_rotation_sq (self : odom) (prev : Previous) (r : Readings)
    (hV : (self.cycle prev r).changeInVertical = 0)
    (hH : (self.cycle prev r).changeInHorizontal = 0) :
    (self.cycle prev r).changeinX ^ 2 + (self.cycle prev r).changeinY ^ 2
      = 4 * Real.sin ((self.cycle prev r).changeInHeading / 2) ^ 2
        * (self.horizontalDistanceFromCenter ^ 2 + self.verticalDistanceFromCenter ^ 2) := by
  rw [odom.cycle_change_sq]
  by_cases hd : (self.cycle prev r).changeInHeading = 0
  · rw [odom.cycle_localX, odom.cycle_localY, if_pos hd, if_pos hd, hV, hH, hd]
    simp
  · obtain ⟨hx, hy⟩ := odom.cycle_pure_rotation self prev r hV hH hd
    rw [hx, hy]
    ring

theorem M_PI_pos : 0 < M_PI := by
  unfold M_PI
  norm_num

theorem odom.cycle_half_turn (self : odom) :
    (self.cycle zeroPrevious (readingsAt 0 0 180)).changeInVertical = 0
    ∧ (self.cycle zeroPrevious (readingsAt 0 0 180)).changeInHorizontal = 0
    ∧ (self.cycle zeroPrevious (readingsAt 0 0 180)).changeInHeading = M_PI := by
  refine ⟨?_, ?_, ?_⟩
  · simp [odom.cycle, zeroPrevious, readingsAt]
  · simp [odom.cycle, zeroPrevious, readingsAt]
  · have hd : (self.cycle zeroPrevious (readingsAt 0 0 180)).changeInHeading
        = 180 * (M_PI / 180) - 0 := rfl
    rw [hd]
    ring

/-- C10.  Pure rotation is bounded and offset-proportional: on an iteration
with zero wheel deltas and a nonzero heading change `d`, the local
displacement is `(2*sin(d/2)*horizontalDistanceFromCenter,
2*sin(d/2)*verticalDistanceFromCenter)`, and the squared length of the change
of the pose `(x, y)` is
`4*sin(d/2)^2*(horizontalDistanceFromCenter^2 + verticalDistanceFromCenter^2)`,
which is at most
`4*(horizontalDistanceFromCenter^2 + verticalDistanceFromCenter^2)`. -/
theorem odom.pure_rotation_bounded (self : odom) (prev : Previous) (r : Readings)
    (hV : (self.cycle prev r).changeInVertical = 0)
    (hH : (self.cycle prev r).changeInHorizontal = 0)
    (hd : (self.cycle prev r).changeInHeading ≠ 0) :
    ((self.cycle prev r).localX
        = 2 * Real.sin ((self.cycle prev r).changeInHeading / 2)
          * self.horizontalDistanceFromCenter
      ∧ (self.cycle prev r).localY
        = 2 * Real.sin ((self.cycle prev r).changeInHeading / 2)
          * self.verticalDistanceFromCenter)
    ∧ ((self.tick prev r).1.getX - self.getX) ^ 2 + ((self.tick prev r).1.getY - self.getY) ^ 2
        = 4 * Real.sin ((self.cycle prev r).changeInHeading / 2) ^ 2
          * (self.horizontalDistanceFromCenter ^ 2 + self.verticalDistanceFromCenter ^ 2)
    ∧ ((self.tick prev r).1.getX - self.getX) ^ 2 + ((self.tick prev r).1.getY - self.getY) ^ 2
        ≤ 4 * (self.horizontalDistanceFromCenter ^ 2 + self.verticalDistanceFromCenter ^ 2) := by
  have hsq : ((self.tick prev r).1.getX - self.getX) ^ 2
      + ((self.tick prev r).1.getY - self.getY) ^ 2
      = 4 * Real.sin ((self.cycle prev r).changeInHeading / 2) ^ 2
        * (self.horizontalDistanceFromCenter ^ 2 + self.verticalDistanceFromCenter ^ 2) := by
    rw [odom.tick_getX, odom.tick_getY, add_sub_cancel_left, add_sub_cancel_left]
    exact odom.cycle_pure_rotation_sq self prev r hV hH
  refine ⟨odom.cycle_pure_rotation self prev r hV hH hd, hsq, ?_⟩
  rw [hsq]
  have h1 : Real.sin ((self.cycle prev r).changeInHeading / 2) ^ 2 ≤ 1 :=
    Real.sin_sq_le_one _
  have h2 : 0 ≤ self.horizontalDistanceFromCenter ^ 2 + self.verticalDistanceFromCenter ^ 2 := by
    positivity
  nlinarith [mul_le_mul_of_nonneg_right h1 h2]

/-- C10 at a concrete input: with the horizontal wheel one inch off the
center, an iteration with zero wheel deltas in which the heading goes from `0`
to `180` degrees has the local displacement `(2*sin(M_PI/2), 0)`. -/
theorem odom.pure_rotation_bounded_witness :
    (offsetOdom.cycle zeroPrevious (readingsAt 0 0 180)).localX = 2 * Real.sin (M_PI / 2)
    ∧ (offsetOdom.cycle zeroPrevious (readingsAt 0 0 180)).localY = 0 := by
  obtain ⟨cV, cH, cd⟩ := odom.cycle_half_turn offsetOdom
  have h := (odom.pure_rotation_bounded offsetOdom zeroPrevious (readingsAt 0 0 180) cV cH
    (by rw [cd]; exact M_PI_pos.ne')).1
  rw [cd] at h
  have hH1 : offsetOdom.horizontalDistanceFromCenter = 1 := rfl
  have hV0 : offsetOdom.verticalDistanceFromCenter = 0 := rfl
  rw [hH1, hV0] at h
  exact ⟨by rw [h.1, mul_one], by rw [h.2, mul_zero]⟩

/-! ## The controller: the integral term, the sign helper and the limits -/

theorem PID.update_max (p : PID) (e : ℚ) : (p.update e).1.pid.max = p.pid.max := rfl

theorem PID.update_min (p : PID) (e : ℚ) : (p.update e).1.pid.min = p.pid.min := rfl

theorem PID.run_max (p : PID) (es : List ℚ) : (p.run es).pid.max = p.pid.max := by
  induction es generalizing p with
  | nil => rfl
  | cons e es ih => rw [PID.run_cons, ih, PID.update_max]

theorem PID.run_min (p : PID) (es : List ℚ) : (p.run es).pid.min = p.pid.min := by
  induction es generalizing p with
  | nil => rfl
  | cons e es ih => rw [PID.run_cons, ih, PID.update_min]

/-- With `max < min`, `update` returns `min` from every state: the upper clamp
runs first and the lower clamp then overrides it. -/
theorem PID.update_of_max_lt_min (p : PID) (e : ℚ) (h : p.pid.max < p.pid.min) :
    (p.update e).2 = p.pid.min := by
  rw [PID.update_output]
  by_cases h1 : p.pid.Kp * e + p.pid.Ki * (p.update e).1.pid.integral
      + p.pid.Kd * (e - p.pid.error) > p.pid.max
  · rw [if_pos h1, if_pos h]
  · rw [if_neg h1, if_pos (lt_of_le_of_lt (not_lt.mp h1) h)]

/-- C14.  Integral accumulation: when no reset condition holds for
`update(e)` (`e` is nonzero, `sgn e` equals `sgn` of the previous error, and
`|e| ≤ integral_tolerance`), the integral term afterwards is the one before
plus `e` when `|e| < integral_tolerance`, and is unchanged when
`|e| = integral_tolerance`. -/
theorem PID.integral_accumulates (p : PID) (e : ℚ) (h0 : e ≠ 0)
    (hs : sgn e = sgn p.pid.error) (hle : |e| ≤ p.pid.integral_tolerance) :
    (|e| < p.pid.integral_tolerance → (p.update e).1.pid.integral = p.pid.integral + e)
    ∧ (|e| = p.pid.integral_tolerance → (p.update e).1.pid.integral = p.pid.integral) := by
  have hno : ¬ (sgn e ≠ sgn p.pid.error ∨ e = 0 ∨ |e| > p.pid.integral_tolerance) := by
    rintro (h | h | h)
    · exact h hs
    · exact h0 h
    · exact absurd h (not_lt.mpr hle)
  rw [PID.update_integral, if_neg hno]
  constructor
  · intro hlt
    rw [if_pos hlt]
  · intro heq
    rw [if_neg (not_lt.mpr heq.ge)]

/-- The accumulation at concrete inputs: built in storage whose integral term
held `7`, with stored error `10` and integral tolerance `3`, `update(2)` gives
the integral term `9` and `update(3)` leaves it at `7`. -/
theorem PID.integral_accumulates_witness :
    ((PID.ctor dirtyMem 1 0 0 10 3 1 30 12 (-12)).update 2).1.pid.integral = 7 + 2
    ∧ ((PID.ctor dirtyMem 1 0 0 10 3 1 30 12 (-12)).update 3).1.pid.integral = 7 :=
  ⟨(PID.integral_accumulates (PID.ctor dirtyMem 1 0 0 10 3 1 30 12 (-12)) 2 (by norm_num)
      (by norm_num [sgn, PID.ctor]) (by norm_num [PID.ctor, abs_of_pos])).1
      (by norm_num [PID.ctor, abs_of_pos]),
    (PID.integral_accumulates (PID.ctor dirtyMem 1 0 0 10 3 1 30 12 (-12)) 3 (by norm_num)
      (by norm_num [sgn, PID.ctor]) (by norm_num [PID.ctor, abs_of_pos])).2
      (by norm_num [PID.ctor, abs_of_pos])⟩

/-- C15.  Zero-sign asymmetry: `sgn` returns `+1` at `0` and at every
positive input and `-1` at every negative input; so, with
`integral_tolerance > 0`, after `update(0)` followed by `update(e)` the
integral term is `e` when `0 < e < integral_tolerance` and `0` when
`-integral_tolerance < e < 0`. -/
theorem PID.zero_sign_asymmetry :
    sgn 0 = 1
    ∧ (∀ x : ℚ, 0 < x → sgn x = 1)
    ∧ (∀ x : ℚ, x < 0 → sgn x = -1)
    ∧ (∀ (p : PID) (e : ℚ), 0 < p.pid.integral_tolerance → 0 < e →
        e < p.pid.integral_tolerance → ((p.update 0).1.update e).1.pid.integral = e)
    ∧ (∀ (p : PID) (e : ℚ), 0 < p.pid.integral_tolerance → -p.pid.integral_tolerance < e →
        e < 0 → ((p.update 0).1.update e).1.pid.integral = 0) := by
  have hpos : ∀ x : ℚ, 0 < x → sgn x = 1 := fun x hx => by
    unfold sgn
    rw [if_neg (not_lt.mpr hx.le)]
  have hneg : ∀ x : ℚ, x < 0 → sgn x = -1 := fun x hx => by
    unfold sgn
    rw [if_pos hx]
  have hzero : sgn 0 = 1 := by
    unfold sgn
    rw [if_neg (lt_irrefl 0)]
  have hreset : ∀ p : PID, (p.update 0).1.pid.integral = 0 := fun p => by
    rw [PID.update_integral, if_pos (Or.inr (Or.inl rfl))]
  refine ⟨hzero, hpos, hneg, ?_, ?_⟩
  · intro p e _ he hlt
    have habs : |e| = e := abs_of_pos he
    have hno : ¬ (sgn e ≠ sgn (p.update 0).1.pid.error ∨ e = 0
        ∨ |e| > (p.update 0).1.pid.integral_tolerance) := by
      rw [PID.update_error, PID.update_integral_tolerance, hzero, hpos e he, habs]
      rintro (h | h | h)
      · exact h rfl
      · exact he.ne' h
      · exact absurd h (not_lt.mpr hlt.le)
    rw [PID.update_integral, if_neg hno, PID.update_integral_tolerance, habs, if_pos hlt,
      hreset, zero_add]
  · intro p e _ _ he
    rw [PID.update_integral, if_pos]
    left
    rw [PID.update_error, hzero, hneg e he]
    decide

/-- The asymmetry at concrete inputs: the example controller (integral
tolerance `3`) after `update(0)`, `update(2)` has the integral term `2`, and
after `update(0)`, `update(-2)` has the integral term `0`. -/
theorem PID.zero_sign_asymmetry_witness :
    ((exampleController.update 0).1.update 2).1.pid.integral = 2
    ∧ ((exampleController.update 0).1.update (-2)).1.pid.integral = 0 :=
  ⟨PID.zero_sign_asymmetry.2.2.2.1 exampleController 2
      (by norm_num [exampleController, PID.ctor]) (by norm_num)
      (by norm_num [exampleController, PID.ctor]),
    PID.zero_sign_asymmetry.2.2.2.2 exampleController (-2)
      (by norm_num [exampleController, PID.ctor])
      (by norm_num [exampleController, PID.ctor]) (by norm_num)⟩

/-- Misconfigured output limits over the rationals, where no value is NaN: a
controller constructed with `min > max` returns exactly `min` from `update`,
for every error and in every state it reaches.  The statement over `float`
values with NaN is proved on `XPID.update` below. -/
theorem PID.update_misconfigured (mem : PID)
    (Kp Ki Kd error integral_tolerance tolerance settle_time max min : ℚ)
    (h : min > max) (es : List ℚ) (e : ℚ) :
    (((PID.ctor mem Kp Ki Kd error integral_tolerance tolerance settle_time max min).run
      es).update e).2 = min := by
  have hmax : ((PID.ctor mem Kp Ki Kd error integral_tolerance tolerance settle_time max
      min).run es).pid.max = max := by
    rw [PID.run_max]
    rfl
  have hmin : ((PID.ctor mem Kp Ki Kd error integral_tolerance tolerance settle_time max
      min).run es).pid.min = min := by
    rw [PID.run_min]
    rfl
  rw [PID.update_of_max_lt_min _ e (by rw [hmax, hmin]; exact h), hmin]

/-- The misconfigured limits at a concrete input: built with `max = -12` and
`min = 12`, the controller returns `12` for the error `-100` after two earlier
updates. -/
theorem PID.update_misconfigured_witness :
    (12 : ℚ) > -12
    ∧ (((PID.ctor zeroMem 1 0 0 10 3 1 30 (-12) 12).run [5, 1]).update (-100)).2 = 12 :=
  ⟨by norm_num,
    PID.update_misconfigured zeroMem 1 0 0 10 3 1 30 (-12) 12 (by norm_num) [5, 1] (-100)⟩

/-! ## The controller over `XFloat`: NaN and the clamp -/

theorem XFloat.add_fin (a b : ℚ) : XFloat.add (.fin a) (.fin b) = .fin (a + b) := rfl

theorem XFloat.sub_fin (a b : ℚ) : XFloat.sub (.fin a) (.fin b) = .fin (a - b) := by
  unfold XFloat.sub XFloat.neg
  rw [XFloat.add_fin, sub_eq_add_neg]

theorem XFloat.mul_fin (a b : ℚ) : XFloat.mul (.fin a) (.fin b) = .fin (a * b) := rfl

theorem XFloat.fabs_fin (a : ℚ) : XFloat.fabs (.fin a) = .fin |a| := rfl

theorem XFloat.lt_fin (a b : ℚ) : XFloat.lt (.fin a) (.fin b) = decide (a < b) := rfl

theorem XFloat.gt_fin (a b : ℚ) : XFloat.gt (.fin a) (.fin b) = decide (a > b) := rfl

theorem XFloat.eq_fin (a b : ℚ) : XFloat.eq (.fin a) (.fin b) = decide (a = b) := rfl

theorem xsgn_fin (a : ℚ) : xsgn (.fin a) = sgn a := by
  unfold xsgn sgn
  rw [XFloat.lt_fin]
  simp

/-- On finite values the embedding over `XFloat` agrees with the embedding
over the rationals: `update` commutes with reading a rational controller as
an `XFloat` controller. -/
theorem XPID.update_ofPID (p : PID) (e : ℚ) :
    p.toX.update (.fin e) = ((p.update e).1.toX, .fin (p.update e).2) := by
  unfold XPID.update PID.update PID.toX
  have hite : ∀ (c : Prop) [Decidable c] (a b : ℚ),
      (if c then XFloat.fin a else XFloat.fin b) = XFloat.fin (if c then a else b) := by
    intro c _ a b
    split_ifs <;> rfl
  simp only [XFloat.add_fin, XFloat.sub_fin, XFloat.mul_fin, XFloat.fabs_fin, XFloat.lt_fin,
    XFloat.gt_fin, XFloat.eq_fin, xsgn_fin, XFloat.ofInt, decide_eq_true_eq, hite,
    Int.cast_neg]

/-- The constructor commutes with reading a rational controller as an
`XFloat` controller. -/
theorem XPID.ctor_ofPID (mem : PID)
    (Kp Ki Kd error integral_tolerance tolerance settle_time max min : ℚ) :
    XPID.ctor mem.toX (.fin Kp) (.fin Ki) (.fin Kd) (.fin error) (.fin integral_tolerance)
        (.fin tolerance) (.fin settle_time) (.fin max) (.fin min)
      = (PID.ctor mem Kp Ki Kd error integral_tolerance tolerance settle_time max min).toX := by
  unfold XPID.ctor PID.ctor PID.toX
  simp only [xsgn_fin, XFloat.fabs_fin, XFloat.toInt, Rat.cast_zero]

theorem XPID.xupdate_max (p : XPID) (e : XFloat) : (p.update e).1.pid.max = p.pid.max := rfl

theorem XPID.xupdate_min (p : XPID) (e : XFloat) : (p.update e).1.pid.min = p.pid.min := rfl

theorem XPID.xrun_max (p : XPID) (es : List XFloat) : (p.run es).pid.max = p.pid.max := by
  induction es generalizing p with
  | nil => rfl
  | cons e es ih =>
    have hc : p.run (e :: es) = (p.update e).1.run es := rfl
    rw [hc, ih, XPID.xupdate_max]

theorem XPID.xrun_min (p : XPID) (es : List XFloat) : (p.run es).pid.min = p.pid.min := by
  induction es generalizing p with
  | nil => rfl
  | cons e es ih =>
    have hc : p.run (e :: es) = (p.update e).1.run es := rfl
    rw [hc, ih, XPID.xupdate_min]

/-- The value `update` returns is its raw value passed through the two clamp
statements, the upper one first. -/
theorem XPID.xupdate_output (p : XPID) (e : XFloat) :
    (p.update e).2 =
      if XFloat.lt (if XFloat.gt (p.raw e) p.pid.max then p.pid.max else p.raw e) p.pid.min
      then p.pid.min
      else (if XFloat.gt (p.raw e) p.pid.max then p.pid.max else p.raw e) := rfl

/-! ### The comparisons of `XFloat` -/

theorem XFloat.lt_nan_left (a : XFloat) : XFloat.lt .nan a = false := by
  cases a <;> rfl

theorem XFloat.lt_nan_right (a : XFloat) : XFloat.lt a .nan = false := by
  cases a <;> rfl

theorem XFloat.lt_ne_nan (a b : XFloat) (h : XFloat.lt a b = true) : a ≠ .nan ∧ b ≠ .nan := by
  cases a <;> cases b <;> simp_all [XFloat.lt]

theorem XFloat.le_ne_nan (a b : XFloat) (h : XFloat.le a b = true) : a ≠ .nan ∧ b ≠ .nan := by
  cases a <;> cases b <;> simp_all [XFloat.le, XFloat.lt, XFloat.eq]

theorem XFloat.le_refl (a : XFloat) (h : a ≠ .nan) : XFloat.le a a = true := by
  cases a <;> simp_all [XFloat.le, XFloat.lt, XFloat.eq]

theorem XFloat.not_lt_of_le (a b : XFloat) (h : XFloat.le a b = true) :
    XFloat.lt b a = false := by
  cases a <;> cases b <;> simp_all [XFloat.le, XFloat.lt, XFloat.eq]
  rcases h with h | h
  · exact h.le
  · exact h.le

theorem XFloat.le_of_not_lt (a b : XFloat) (ha : a ≠ .nan) (hb : b ≠ .nan)
    (h : XFloat.lt a b = false) : XFloat.le b a = true := by
  cases a <;> cases b <;> simp_all [XFloat.le, XFloat.lt, XFloat.eq]
  exact lt_or_eq_of_le h

theorem XFloat.not_lt_of_lt_of_le (r mx mn : XFloat) (h1 : XFloat.lt mx r = true)
    (h2 : XFloat.le mn mx = true) : XFloat.lt r mn = false := by
  cases r <;> cases mx <;> cases mn <;> simp_all [XFloat.le, XFloat.lt, XFloat.eq]
  rcases h2 with h2 | h2
  · exact (h2.trans h1).le
  · rw [h2]
    exact h1.le

theorem XFloat.lt_of_not_lt_of_lt (r mx mn : XFloat) (hr : r ≠ .nan)
    (h1 : XFloat.lt mx r = false) (h2 : XFloat.lt mx mn = true) : XFloat.lt r mn = true := by
  cases r <;> cases mx <;> cases mn <;> simp_all [XFloat.lt]
  exact lt_of_le_of_lt h1 h2

/-- A NaN raw value passes both clamp statements unchanged. -/
theorem XPID.update_of_raw_nan (p : XPID) (e : XFloat) (h : p.raw e = .nan) :
    (p.update e).2 = .nan := by
  have h1 : XFloat.gt .nan p.pid.max = false := XFloat.lt_nan_right _
  have h2 : XFloat.lt .nan p.pid.min = false := XFloat.lt_nan_left _
  rw [XPID.xupdate_output, h, h1]
  simp only [Bool.false_eq_true, if_false, h2]

/-- A raw value of NaN arises from a NaN error, whatever the controller. -/
theorem XPID.raw_nan (p : XPID) : p.raw .nan = .nan := by
  unfold XPID.raw
  have h1 : ∀ a : XFloat, XFloat.mul a .nan = .nan := fun a => by cases a <;> rfl
  have h2 : ∀ a : XFloat, XFloat.add .nan a = .nan := fun a => by cases a <;> rfl
  have h3 : ∀ a : XFloat, XFloat.add a .nan = .nan := fun a => by cases a <;> rfl
  have h4 : ∀ a : XFloat, XFloat.sub .nan a = .nan := fun a => by
    unfold XFloat.sub
    exact h2 _
  rw [h1, h2, h4, h1, h3]

/-- C1, as stated, fails: the example controller has `min = -12 <= max = 12`;
fed an error that is NaN its raw value is NaN, both clamp comparisons are
false, and `update` returns NaN, which is neither `>= min` nor `<= max`. -/
theorem XPID.update_returns_nan :
    XFloat.le xExampleController.pid.min xExampleController.pid.max = true
    ∧ xExampleController.raw .nan = .nan
    ∧ (xExampleController.update .nan).2 = .nan
    ∧ XFloat.le xExampleController.pid.min (xExampleController.update .nan).2 = false
    ∧ XFloat.le (xExampleController.update .nan).2 xExampleController.pid.max = false := by
  have hraw := XPID.raw_nan xExampleController
  have hout := XPID.update_of_raw_nan xExampleController .nan hraw
  refine ⟨?_, hraw, hout, ?_, ?_⟩
  · have hmin : xExampleController.pid.min = .fin (-12) := rfl
    have hmax : xExampleController.pid.max = .fin 12 := rfl
    rw [hmin, hmax]
    simp [XFloat.le, XFloat.lt, XFloat.eq]
  · rw [hout]
    cases xExampleController.pid.min <;> rfl
  · rw [hout]
    cases xExampleController.pid.max <;> rfl

/-- C1, amended.  `PID::update` clamps every raw value that is not NaN: for
every controller state with `min <= max` and every error whose raw value
`Kp*e + Ki*integral + Kd*(e - previous_error)` is not NaN, a raw value
greater than `max` returns exactly `max`, one less than `min` returns exactly
`min`, and the returned value lies in `[min, max]`. -/
theorem XPID.update_clamps_of_not_nan (p : XPID) (e : XFloat)
    (h : XFloat.le p.pid.min p.pid.max = true) (hraw : p.raw e ≠ .nan) :
    (XFloat.gt (p.raw e) p.pid.max = true → (p.update e).2 = p.pid.max)
    ∧ (XFloat.lt (p.raw e) p.pid.min = true → (p.update e).2 = p.pid.min)
    ∧ XFloat.le p.pid.min (p.update e).2 = true
    ∧ XFloat.le (p.update e).2 p.pid.max = true := by
  obtain ⟨hmin, hmax⟩ := XFloat.le_ne_nan _ _ h
  rw [XPID.xupdate_output]
  cases hg : XFloat.gt (p.raw e) p.pid.max with
  | true =>
    have hl : XFloat.lt p.pid.max p.pid.min = false := XFloat.not_lt_of_le _ _ h
    have hn : XFloat.lt (p.raw e) p.pid.min = false :=
      XFloat.not_lt_of_lt_of_le _ _ _ hg h
    have hout : (if XFloat.lt (if true = true then p.pid.max else p.raw e) p.pid.min = true
        then p.pid.min else (if true = true then p.pid.max else p.raw e)) = p.pid.max := by
      rw [if_pos rfl, hl]
      rfl
    rw [hout, hn]
    exact ⟨fun _ => rfl, fun hf => absurd hf (by decide), h, XFloat.le_refl _ hmax⟩
  | false =>
    have hg2 : XFloat.lt p.pid.max (p.raw e) = false := hg
    have hfalse : ¬ (false = true) := by decide
    cases hl : XFloat.lt (p.raw e) p.pid.min with
    | true =>
      have hout : (if XFloat.lt (if false = true then p.pid.max else p.raw e) p.pid.min = true
          then p.pid.min else (if false = true then p.pid.max else p.raw e)) = p.pid.min := by
        rw [if_neg hfalse, hl, if_pos rfl]
      rw [hout]
      exact ⟨fun hf => absurd hf hfalse, fun _ => rfl, XFloat.le_refl _ hmin, h⟩
    | false =>
      have hout : (if XFloat.lt (if false = true then p.pid.max else p.raw e) p.pid.min = true
          then p.pid.min else (if false = true then p.pid.max else p.raw e)) = p.raw e := by
        rw [if_neg hfalse, hl, if_neg hfalse]
      rw [hout]
      exact ⟨fun hf => absurd hf hfalse, fun hf => absurd hf hfalse,
        XFloat.le_of_not_lt _ _ hraw hmin hl, XFloat.le_of_not_lt _ _ hmax hraw hg2⟩

/-- Runs commute with reading a rational controller as an `XFloat`
controller. -/
theorem XPID.run_ofPID (p : PID) (es : List ℚ) :
    p.toX.run (es.map XFloat.fin) = (p.run es).toX := by
  induction es generalizing p with
  | nil => rfl
  | cons e es ih =>
    have hc : p.toX.run ((e :: es).map XFloat.fin)
        = (p.toX.update (.fin e)).1.run (es.map XFloat.fin) := rfl
    rw [hc, XPID.update_ofPID, ih, PID.run_cons]

/-- On a rational controller and a rational error the raw value is a number,
the one of the embedding over the rationals. -/
theorem XPID.raw_ofPID (p : PID) (e : ℚ) :
    p.toX.raw (.fin e)
      = .fin (p.pid.Kp * e + p.pid.Ki * (p.update e).1.pid.integral
        + p.pid.Kd * (e - p.pid.error)) := by
  unfold XPID.raw
  rw [XPID.update_ofPID]
  have h1 : p.toX.pid.Kp = .fin p.pid.Kp := rfl
  have h2 : p.toX.pid.Ki = .fin p.pid.Ki := rfl
  have h3 : p.toX.pid.Kd = .fin p.pid.Kd := rfl
  have h4 : p.toX.pid.error = .fin p.pid.error := rfl
  have h5 : ((p.update e).1.toX, XFloat.fin (p.update e).2).1.pid.integral
      = .fin (p.update e).1.pid.integral := rfl
  rw [h1, h2, h3, h4, h5, XFloat.mul_fin, XFloat.mul_fin, XFloat.sub_fin, XFloat.mul_fin,
    XFloat.add_fin, XFloat.add_fin]

/-- The amended C1 at a concrete input: the example controller (limits `-12`
and `12`) fed the error `20` has the raw value `20`, not NaN and above `max`,
and returns `max`. -/
theorem XPID.update_clamps_of_not_nan_witness :
    XFloat.le xExampleController.pid.min xExampleController.pid.max = true
    ∧ xExampleController.raw (.fin 20) ≠ .nan
    ∧ (xExampleController.update (.fin 20)).2 = xExampleController.pid.max := by
  have hraw : xExampleController.raw (.fin 20) = .fin 20 := by
    unfold xExampleController
    rw [XPID.raw_ofPID]
    norm_num [exampleController, PID.ctor, PID.update, zeroMem, sgn]
  have hle : XFloat.le xExampleController.pid.min xExampleController.pid.max = true := by
    have hmin : xExampleController.pid.min = .fin (-12) := rfl
    have hmax : xExampleController.pid.max = .fin 12 := rfl
    rw [hmin, hmax]
    simp [XFloat.le, XFloat.lt, XFloat.eq]
  have hne : xExampleController.raw (.fin 20) ≠ .nan := by
    rw [hraw]
    exact fun hc => XFloat.noConfusion hc
  refine ⟨hle, hne, (XPID.update_clamps_of_not_nan xExampleController (.fin 20) hle hne).1 ?_⟩
  have hmax : xExampleController.pid.max = .fin 12 := rfl
  rw [hraw, hmax, XFloat.gt_fin]
  norm_num

/-- C19, as stated, fails: the controller constructed with `max = -12` and
`min = 12` (so `min > max`), fed an error that is NaN, returns NaN and not
`min`. -/
theorem XPID.update_swapped_nan :
    xSwappedController
        = XPID.ctor zeroMem.toX (.fin 1) (.fin 0) (.fin 0) (.fin 10) (.fin 3) (.fin 1) (.fin 30)
            (.fin (-12)) (.fin 12)
    ∧ XFloat.gt xSwappedController.pid.min xSwappedController.pid.max = true
    ∧ (xSwappedController.update .nan).2 = .nan
    ∧ (xSwappedController.update .nan).2 ≠ xSwappedController.pid.min := by
  have hout := XPID.update_of_raw_nan xSwappedController .nan (XPID.raw_nan _)
  have hmin : xSwappedController.pid.min = .fin 12 := rfl
  have hmax : xSwappedController.pid.max = .fin (-12) := rfl
  refine ⟨?_, ?_, hout, ?_⟩
  · unfold xSwappedController swappedController
    rw [XPID.ctor_ofPID]
  · rw [hmin, hmax, XFloat.gt_fin]
    norm_num
  · rw [hout, hmin]
    exact fun hc => XFloat.noConfusion hc

/-- With `max < min`, `update` returns `min` from every state in which the raw
value is not NaN. -/
theorem XPID.xupdate_of_max_lt_min (p : XPID) (e : XFloat)
    (h : XFloat.gt p.pid.min p.pid.max = true) (hraw : p.raw e ≠ .nan) :
    (p.update e).2 = p.pid.min := by
  have hlt : XFloat.lt p.pid.max p.pid.min = true := h
  have hfalse : ¬ (false = true) := by decide
  rw [XPID.xupdate_output]
  cases hg : XFloat.gt (p.raw e) p.pid.max with
  | true => rw [if_pos rfl, hlt, if_pos rfl]
  | false =>
    have hl : XFloat.lt (p.raw e) p.pid.min = true :=
      XFloat.lt_of_not_lt_of_lt _ _ _ hraw hg hlt
    rw [if_neg hfalse, hl, if_pos rfl]

/-- C19, amended.  Misconfigured output limits: a controller constructed with
`min > max` returns exactly `min` from `update`, for every error and in every
state it reaches in which the raw value is not NaN, because the upper clamp is
applied before the lower clamp. -/
theorem XPID.update_min_of_swapped (mem : XPID)
    (Kp Ki Kd error integral_tolerance tolerance settle_time max min : XFloat)
    (h : XFloat.gt min max = true) (es : List XFloat) (e : XFloat)
    (hraw : ((XPID.ctor mem Kp Ki Kd error integral_tolerance tolerance settle_time max min).run
      es).raw e ≠ .nan) :
    (((XPID.ctor mem Kp Ki Kd error integral_tolerance tolerance settle_time max min).run
      es).update e).2 = min := by
  have hmax : ((XPID.ctor mem Kp Ki Kd error integral_tolerance tolerance settle_time max
      min).run es).pid.max = max := by
    rw [XPID.xrun_max]
    rfl
  have hmin : ((XPID.ctor mem Kp Ki Kd error integral_tolerance tolerance settle_time max
      min).run es).pid.min = min := by
    rw [XPID.xrun_min]
    rfl
  rw [XPID.xupdate_of_max_lt_min _ e (by rw [hmax, hmin]; exact h) hraw, hmin]

/-- The amended C19 at a concrete input: built with `max = -12` and
`min = 12`, after the updates `5` and `1` the error `-100` has the raw value
`-100`, not NaN, and the controller returns `12`. -/
theorem XPID.update_min_of_swapped_witness :
    XFloat.gt (.fin 12) (.fin (-12)) = true
    ∧ ((XPID.ctor zeroMem.toX (.fin 1) (.fin 0) (.fin 0) (.fin 10) (.fin 3) (.fin 1) (.fin 30)
        (.fin (-12)) (.fin 12)).run [.fin 5, .fin 1]).raw (.fin (-100)) ≠ .nan
    ∧ (((XPID.ctor zeroMem.toX (.fin 1) (.fin 0) (.fin 0) (.fin 10) (.fin 3) (.fin 1) (.fin 30)
        (.fin (-12)) (.fin 12)).run [.fin 5, .fin 1]).update (.fin (-100))).2 = .fin 12 := by
  have hgt : XFloat.gt (.fin 12) (.fin (-12)) = true := by
    rw [XFloat.gt_fin]
    norm_num
  have hne : ((XPID.ctor zeroMem.toX (.fin 1) (.fin 0) (.fin 0) (.fin 10) (.fin 3) (.fin 1)
      (.fin 30) (.fin (-12)) (.fin 12)).run [.fin 5, .fin 1]).raw (.fin (-100)) ≠ .nan := by
    have hl : [XFloat.fin 5, XFloat.fin 1] = [(5 : ℚ), 1].map XFloat.fin := rfl
    rw [XPID.ctor_ofPID, hl, XPID.run_ofPID, XPID.raw_ofPID]
    exact fun hc => XFloat.noConfusion hc
  exact ⟨hgt, hne, XPID.update_min_of_swapped zeroMem.toX (.fin 1) (.fin 0) (.fin 0) (.fin 10)
    (.fin 3) (.fin 1) (.fin 30) (.fin (-12)) (.fin 12) hgt [.fin 5, .fin 1] (.fin (-100)) hne⟩

/-! ## The odometry loop: pacing, the degenerate tick, setters, the rotation -/

/-- When an iteration takes no longer than the tick period, the argument
passed to `sleep_for` is `max(0, updateRateMilliseconds - timeElapsed)`. -/
theorem odom.sleepArgument_in_budget (self : odom) (timeElapsed : ℤ)
    (h : timeElapsed ≤ self.updateRateMilliseconds) :
    self.sleepArgument timeElapsed = max 0 (self.updateRateMilliseconds - timeElapsed) := by
  unfold odom.sleepArgument
  rw [max_eq_right (sub_nonneg.mpr h)]

/-- C11: the loop does not clamp its sleep request.  With a tick period of
`10` ms and an iteration that took `15` ms, the argument passed to `sleep_for`
is `10 - 15 = -5`, not `max(0, -5) = 0`; read as an unsigned 32-bit number of
milliseconds it is `4294967291`. -/
theorem odom.sleepArgument_overrun :
    centeredOdom.updateRateMilliseconds = 10
    ∧ centeredOdom.sleepArgument 15 = -5
    ∧ max 0 (centeredOdom.updateRateMilliseconds - 15) = 0
    ∧ centeredOdom.sleepArgument 15 ≠ max 0 (centeredOdom.updateRateMilliseconds - 15)
    ∧ toUnsigned 32 (centeredOdom.sleepArgument 15) = 4294967291 := by
  have h10 : centeredOdom.updateRateMilliseconds = 10 := rfl
  have h5 : centeredOdom.sleepArgument 15 = -5 := by
    unfold odom.sleepArgument
    rw [h10]
    norm_num
  refine ⟨h10, h5, ?_, ?_, ?_⟩
  · rw [h10]
    norm_num
  · rw [h5, h10]
    norm_num
  · rw [h5]
    unfold toUnsigned
    norm_num

theorem odom.cycle_localPolarAngle (self : odom) (prev : Previous) (r : Readings) :
    (self.cycle prev r).localPolarAngle =
      if (self.cycle prev r).localX = 0 ∧ (self.cycle prev r).localY = 0 then 0
      else atan2f (self.cycle prev r).localY (self.cycle prev r).localX := rfl

theorem odom.cycle_polarRadius (self : odom) (prev : Previous) (r : Readings) :
    (self.cycle prev r).polarRadius =
      if (self.cycle prev r).localX = 0 ∧ (self.cycle prev r).localY = 0 then 0
      else sqrtf (powf (self.cycle prev r).localX 2 + powf (self.cycle prev r).localY 2) := rfl

theorem odom.cycle_changein (self : odom) (prev : Previous) (r : Readings) :
    (self.cycle prev r).changeinX
        = (self.cycle prev r).polarRadius * Real.cos (self.cycle prev r).globalPolarAngle
    ∧ (self.cycle prev r).changeinY
        = (self.cycle prev r).polarRadius * Real.sin (self.cycle prev r).globalPolarAngle :=
  ⟨rfl, rfl⟩

/-- C12.  The degenerate no-motion tick: when `localX = 0` and `localY = 0`
the local polar angle is `0` and the polar radius is `0` (the branch that
calls `atan2f` is not taken), and the iteration leaves `x` and `y` exactly
unchanged, for every previous heading and heading change. -/
theorem odom.no_motion_tick (self : odom) (prev : Previous) (r : Readings)
    (hx : (self.cycle prev r).localX = 0) (hy : (self.cycle prev r).localY = 0) :
    (self.cycle prev r).localPolarAngle = 0
    ∧ (self.cycle prev r).polarRadius = 0
    ∧ (self.tick prev r).1.getX = self.getX
    ∧ (self.tick prev r).1.getY = self.getY := by
  have hr : (self.cycle prev r).polarRadius = 0 := by
    rw [odom.cycle_polarRadius, if_pos ⟨hx, hy⟩]
  refine ⟨?_, hr, ?_, ?_⟩
  · rw [odom.cycle_localPolarAngle, if_pos ⟨hx, hy⟩]
  · rw [odom.tick_getX, (odom.cycle_changein self prev r).1, hr, zero_mul, add_zero]
  · rw [odom.tick_getY, (odom.cycle_changein self prev r).2, hr, zero_mul, add_zero]

/-- The degenerate tick at a concrete input: with both offsets zero, zero
wheel deltas and the heading going from `0` to `180` degrees, the local
displacement is `(0, 0)`, angle and radius are `0` and the pose stays. -/
theorem odom.no_motion_tick_witness :
    (centeredOdom.cycle zeroPrevious (readingsAt 0 0 180)).localX = 0
    ∧ (centeredOdom.cycle zeroPrevious (readingsAt 0 0 180)).localY = 0
    ∧ (centeredOdom.cycle zeroPrevious (readingsAt 0 0 180)).localPolarAngle = 0
    ∧ (centeredOdom.cycle zeroPrevious (readingsAt 0 0 180)).polarRadius = 0
    ∧ (centeredOdom.tick zeroPrevious (readingsAt 0 0 180)).1.getX = centeredOdom.getX
    ∧ (centeredOdom.tick zeroPrevious (readingsAt 0 0 180)).1.getY = centeredOdom.getY := by
  have hx : (centeredOdom.cycle zeroPrevious (readingsAt 0 0 180)).localX = 0 := by
    rw [odom.cycle_localX]
    simp [odom.cycle, centeredOdom, zeroPrevious, readingsAt]
  have hy : (centeredOdom.cycle zeroPrevious (readingsAt 0 0 180)).localY = 0 := by
    rw [odom.cycle_localY]
    simp [odom.cycle, centeredOdom, zeroPrevious, readingsAt]
  exact ⟨hx, hy, odom.no_motion_tick centeredOdom zeroPrevious (readingsAt 0 0 180) hx hy⟩

/-- C13.  The pose setters overwrite only their own field and round-trip
through the getters: `setX` and `setY` change only `x`, only `y`;
`setHeading(h)` changes only the heading and sets the inertial sensor's
heading and rotation to `h`; `setPosition(x, y, h)` makes `getPosition()`
equal to `(x, y, h)` and sets the sensor's heading and rotation to `h`. -/
theorem odom.setters_roundtrip (self : odom) (Inertial : inertial) (x y h v : ℝ) :
    ((self.setX v).getX = v ∧ (self.setX v).getY = self.getY
      ∧ (self.setX v).getHeading = self.getHeading)
    ∧ ((self.setY v).getY = v ∧ (self.setY v).getX = self.getX
      ∧ (self.setY v).getHeading = self.getHeading)
    ∧ ((self.setHeading Inertial h).1.getHeading = h
      ∧ (self.setHeading Inertial h).1.getX = self.getX
      ∧ (self.setHeading Inertial h).1.getY = self.getY
      ∧ (self.setHeading Inertial h).2.heading = h
      ∧ (self.setHeading Inertial h).2.rotation = h)
    ∧ ((self.setPosition Inertial x y h).1.getPosition = (x, y, h)
      ∧ (self.setPosition Inertial x y h).2.heading = h
      ∧ (self.setPosition Inertial x y h).2.rotation = h) :=
  ⟨⟨rfl, rfl, rfl⟩, ⟨rfl, rfl, rfl⟩, ⟨rfl, rfl, rfl, rfl, rfl⟩, ⟨rfl, rfl, rfl⟩⟩

/-- C16.  Midpoint-heading rotation: in every iteration the angle that turns
the local displacement into the global frame is the local polar angle minus
the average of the heading before the iteration and the current heading
sample in radians. -/
theorem odom.midpoint_heading (self : odom) (prev : Previous) (r : Readings) :
    (self.cycle prev r).globalPolarAngle
        = (self.cycle prev r).localPolarAngle
          - (prev.previousHeading + (self.cycle prev r).heading) / 2
    ∧ (self.cycle prev r).heading = odom.degToRad r.inertialRotation := by
  refine ⟨?_, rfl⟩
  have hd : (self.cycle prev r).changeInHeading
      = (self.cycle prev r).heading - prev.previousHeading := rfl
  rw [odom.cycle_globalPolarAngle, hd]
  ring

/-- C18.  The rotation into the global frame preserves length: in every
iteration `changeinX^2 + changeinY^2 = localX^2 + localY^2`, and that is the
squared length of the change of the pose `(x, y)`. -/
theorem odom.rotation_preserves_length (self : odom) (prev : Previous) (r : Readings) :
    (self.cycle prev r).changeinX ^ 2 + (self.cycle prev r).changeinY ^ 2
        = (self.cycle prev r).localX ^ 2 + (self.cycle prev r).localY ^ 2
    ∧ ((self.tick prev r).1.getX - self.getX) ^ 2 + ((self.tick prev r).1.getY - self.getY) ^ 2
        = (self.cycle prev r).localX ^ 2 + (self.cycle prev r).localY ^ 2 := by
  refine ⟨odom.cycle_change_sq self prev r, ?_⟩
  rw [odom.tick_getX, odom.tick_getY, add_sub_cancel_left, add_sub_cancel_left]
  exact odom.cycle_change_sq self prev r

theorem odom.cycle_localX_eq (self : odom) (prev : Previous) (r : Readings) :
    (self.cycle prev r).localX
      = odom.localDisplacement (self.cycle prev r).changeInHeading
          (self.cycle prev r).changeInHorizontal self.horizontalDistanceFromCenter := rfl

theorem odom.cycle_localY_eq (self : odom) (prev : Previous) (r : Readings) :
    (self.cycle prev r).localY
      = odom.localDisplacement (self.cycle prev r).changeInHeading
          (self.cycle prev r).changeInVertical self.verticalDistanceFromCenter := rfl

/-- The chord factor `2*sin(d/2)` has derivative `1` at `d = 0`. -/
theorem hasDerivAt_chord : HasDerivAt (fun d : ℝ => 2 * Real.sin (d / 2)) 1 0 := by
  have h1 : HasDerivAt (fun d : ℝ => d / 2) (1 / 2) 0 := (hasDerivAt_id (0 : ℝ)).div_const 2
  have h2 : HasDerivAt (fun d : ℝ => Real.sin (d / 2)) (Real.cos (0 / 2) * (1 / 2)) 0 :=
    h1.sin
  have h3 := h2.const_mul (2 : ℝ)
  have h4 : 2 * (Real.cos (0 / 2) * (1 / 2)) = (1 : ℝ) := by
    rw [zero_div, Real.cos_zero]
    norm_num
  rw [h4] at h3
  exact h3

/-- The arc formula tends to the raw delta as the heading change tends to
zero through nonzero values. -/
theorem tendsto_arc (c r : ℝ) :
    Filter.Tendsto (fun d : ℝ => (2 * sinf (d / 2)) * ((c / d) + r))
      (nhdsWithin 0 {0}ᶜ) (nhds c) := by
  have hslope : Filter.Tendsto (fun d : ℝ => d⁻¹ * (2 * Real.sin (d / 2)))
      (nhdsWithin 0 {0}ᶜ) (nhds 1) := by
    have h := hasDerivAt_iff_tendsto_slope.mp hasDerivAt_chord
    refine h.congr (fun d => ?_)
    simp [slope]
  have hcont : Filter.Tendsto (fun d : ℝ => 2 * Real.sin (d / 2))
      (nhdsWithin 0 {0}ᶜ) (nhds 0) := by
    have hc : Continuous (fun d : ℝ => 2 * Real.sin (d / 2)) := by continuity
    have h0 : Filter.Tendsto (fun d : ℝ => 2 * Real.sin (d / 2)) (nhds 0) (nhds 0) := by
      have := hc.tendsto 0
      simpa using this
    exact tendsto_nhdsWithin_of_tendsto_nhds h0
  have hsum := (hslope.const_mul c).add (hcont.const_mul r)
  have hlim : c * 1 + r * 0 = c := by ring
  rw [hlim] at hsum
  refine hsum.congr (fun d => ?_)
  unfold sinf
  ring

/-- C17.  The two local-displacement branches agree in the limit: for every
wheel delta `c` and sensor offset `r`, the arc-branch value
`2*sin(d/2)*(c/d + r)` tends to `c` as the heading change `d` tends to `0`
through nonzero values; so the value the loop assigns to `localX` and
`localY`, as a function of the heading change, is continuous at `0`, where the
`changeInHeading == 0` branch returns the raw delta `c`. -/
theorem odom.localDisplacement_continuous (c r : ℝ) :
    Filter.Tendsto (fun d : ℝ => (2 * sinf (d / 2)) * ((c / d) + r))
      (nhdsWithin 0 {0}ᶜ) (nhds c)
    ∧ odom.localDisplacement 0 c r = c
    ∧ (∀ d : ℝ, d ≠ 0 →
        odom.localDisplacement d c r = (2 * Real.sin (d / 2)) * ((c / d) + r))
    ∧ ContinuousAt (fun d : ℝ => odom.localDisplacement d c r) 0
    ∧ (∀ (self : odom) (prev : Previous) (rd : Readings),
        (self.cycle prev rd).localX
          = odom.localDisplacement (self.cycle prev rd).changeInHeading
              (self.cycle prev rd).changeInHorizontal self.horizontalDistanceFromCenter
        ∧ (self.cycle prev rd).localY
          = odom.localDisplacement (self.cycle prev rd).changeInHeading
              (self.cycle prev rd).changeInVertical self.verticalDistanceFromCenter) := by
  have h0 : odom.localDisplacement 0 c r = c := by
    unfold odom.localDisplacement
    rw [if_pos rfl]
  have harc : ∀ d : ℝ, d ≠ 0 →
      odom.localDisplacement d c r = (2 * sinf (d / 2)) * ((c / d) + r) := by
    intro d hd
    unfold odom.localDisplacement
    rw [if_neg hd]
  refine ⟨tendsto_arc c r, h0, harc, ?_, fun _ _ _ => ⟨rfl, rfl⟩⟩
  rw [← continuousWithinAt_compl_self]
  have hlim : Filter.Tendsto (fun d : ℝ => odom.localDisplacement d c r)
      (nhdsWithin 0 {0}ᶜ) (nhds (odom.localDisplacement 0 c r)) := by
    rw [h0]
    refine (tendsto_arc c r).congr' ?_
    filter_upwards [self_mem_nhdsWithin] with d hd
    exact (harc d hd).symm
  exact hlim
